import Mathlib

/-!
Shallow embedding of the color-math core of the chroma-type-studio
repository, together with proofs about it.

Conventions used throughout:
* JavaScript numbers are modelled by `ℚ` (exact arithmetic); the
  transcendental gamma functions `x ^ 2.4` and `x ^ (1/2.4)` that appear
  in the sRGB linearisation are abstracted as explicit function
  parameters, since every claim proved here is independent of their
  values (both the code translation and the spec-side pipeline receive
  the same parameter).
* `Math.round` is modelled by `jsRound q = ⌊q + 1/2⌋`, which agrees with
  JavaScript's round-half-up behaviour.
* JavaScript's `%` on integers is truncated remainder, modelled by
  `Int.tmod`.
* Hex colors are Lean `String`s; parsing follows the source regexes.
-/

namespace ChromaStudio

/-- JavaScript `Math.round`: round half toward positive infinity. -/
def jsRound (q : ℚ) : ℤ := ⌊q + 1/2⌋

/-- A hex digit per the source regex character class `[a-f\d]` with the
case-insensitive flag: `0-9`, `a-f`, `A-F`. -/
def isHexDigit (c : Char) : Bool :=
  c.isDigit || ('a' ≤ c && c ≤ 'f') || ('A' ≤ c && c ≤ 'F')

/-- Numeric value of a hex digit (`parseInt(-, 16)` on one digit). -/
def hexDigitVal (c : Char) : ℕ :=
  if c.isDigit then c.toNat - 48
  else if 'a' ≤ c && c ≤ 'f' then c.toNat - 87
  else c.toNat - 55

/-- Drop an optional leading `#`, as the `#?` in the source regexes. -/
def stripHash : List Char → List Char
  | '#' :: rest => rest
  | l => l

/-- An RGB triple of 8-bit channels (modelled as naturals). -/
structure Rgb where
  r : ℕ
  g : ℕ
  b : ℕ
  deriving DecidableEq

/-- The successful branch of the source `hexToRgb`
(file `part_003`): the regex `^#?([a-f\d]{2})([a-f\d]{2})([a-f\d]{2})$/i`
matched and the three channel bytes are parsed. -/
def hexToRgbAux : String → Option Rgb := fun hex =>
  match stripHash hex.toList with
  | [c1, c2, c3, c4, c5, c6] =>
    if isHexDigit c1 && isHexDigit c2 && isHexDigit c3 &&
       isHexDigit c4 && isHexDigit c5 && isHexDigit c6 then
      some ⟨16 * hexDigitVal c1 + hexDigitVal c2,
            16 * hexDigitVal c3 + hexDigitVal c4,
            16 * hexDigitVal c5 + hexDigitVal c6⟩
    else none
  | _ => none

/-- Source `hexToRgb` (`part_003`): returns `[0, 0, 0]` when the regex
does not match. -/
def hexToRgb (hex : String) : Rgb :=
  (hexToRgbAux hex).getD ⟨0, 0, 0⟩

/-- A string is a valid 6-digit hex color: an optional `#` followed by
exactly six hex digits (the domain of the source regex). -/
def isValidHex (hex : String) : Bool :=
  (hexToRgbAux hex).isSome

/-- Lowercase hex digit of a value below 16 (`Number.toString(16)`). -/
def toHexDigit (n : ℕ) : Char :=
  if n < 10 then Char.ofNat (48 + n) else Char.ofNat (87 + n)

/-- Two lowercase hex digits of a byte, with the `'0' + hex` padding of
the source `rgbToHex`. -/
def byteToHex (n : ℕ) : List Char :=
  [toHexDigit (n / 16), toHexDigit (n % 16)]

/-- Round then clamp a channel to `[0, 255]`, as in the source
`rgbToHex`: `Math.max(0, Math.min(255, Math.round(x)))`. -/
def roundClampByte (q : ℚ) : ℕ :=
  (max 0 (min 255 (jsRound q))).toNat

/-- Source `rgbToHex` (`part_003`). -/
def rgbToHex (r g b : ℚ) : String :=
  ⟨'#' :: (byteToHex (roundClampByte r) ++ byteToHex (roundClampByte g)
        ++ byteToHex (roundClampByte b))⟩

/-- Vision types of the color-blindness module (`part_003`). -/
inductive VisionType where
  | normal
  | deuteranopia
  | protanopia
  | tritanopia
  deriving DecidableEq

/-- A vector of three JavaScript numbers. -/
structure Vec3 where
  x : ℚ
  y : ℚ
  z : ℚ
  deriving DecidableEq

/-- A 3×3 matrix as three rows. -/
structure Mat3 where
  r1 : Vec3
  r2 : Vec3
  r3 : Vec3

/-- Dot product of a matrix row with a vector, as the source
`row[0]*v[0] + row[1]*v[1] + row[2]*v[2]`. -/
def dotRow (row v : Vec3) : ℚ :=
  row.x * v.x + row.y * v.y + row.z * v.z

/-- Source `multiplyMatrix` (`part_003`). -/
def multiplyMatrix (m : Mat3) (v : Vec3) : Vec3 :=
  ⟨dotRow m.r1 v, dotRow m.r2 v, dotRow m.r3 v⟩

/-- Source `RGB_TO_LMS` matrix (`part_003`). -/
def RGB_TO_LMS : Mat3 :=
  ⟨⟨0.31399022, 0.63951294, 0.04649755⟩,
   ⟨0.15537241, 0.75789446, 0.08670142⟩,
   ⟨0.01775239, 0.10944209, 0.87256922⟩⟩

/-- Source `LMS_TO_RGB` matrix (`part_003`). -/
def LMS_TO_RGB : Mat3 :=
  ⟨⟨5.47221206, -4.64196010, 0.16963708⟩,
   ⟨-1.12524190, 2.29317094, -0.16789520⟩,
   ⟨0.02980165, -0.19318073, 1.16364789⟩⟩

/-- Source `DEUTERANOPIA_MATRIX` (`part_003`). -/
def DEUTERANOPIA_MATRIX : Mat3 :=
  ⟨⟨1.0, 0.0, 0.0⟩,
   ⟨0.494207, 0.0, 1.24827⟩,
   ⟨0.0, 0.0, 1.0⟩⟩

/-- Source `PROTANOPIA_MATRIX` (`part_003`). -/
def PROTANOPIA_MATRIX : Mat3 :=
  ⟨⟨0.0, 2.02344, -2.52581⟩,
   ⟨0.0, 1.0, 0.0⟩,
   ⟨0.0, 0.0, 1.0⟩⟩

/-- Source `TRITANOPIA_MATRIX` (`part_003`). -/
def TRITANOPIA_MATRIX : Mat3 :=
  ⟨⟨1.0, 0.0, 0.0⟩,
   ⟨0.0, 1.0, 0.0⟩,
   ⟨-0.395913, 0.801109, 0.0⟩⟩

/-- Source `srgbToLinear` (`part_003`).  `pow24 x` stands for the
transcendental `Math.pow(x, 2.4)`, abstracted as a parameter. -/
def srgbToLinear (pow24 : ℚ → ℚ) (value : ℚ) : ℚ :=
  let v := value / 255
  if v ≤ 0.04045 then v / 12.92 else pow24 ((v + 0.055) / 1.055)

/-- Source `linearToSrgb` (`part_003`).  `powInv24 x` stands for
`Math.pow(x, 1/2.4)`, abstracted as a parameter. -/
def linearToSrgb (powInv24 : ℚ → ℚ) (value : ℚ) : ℚ :=
  let v := if value ≤ 0.0031308 then value * 12.92
           else 1.055 * powInv24 value - 0.055
  (jsRound (max 0 (min 255 (v * 255))) : ℚ)

/-- Componentwise `Math.max(0, ·)` clamp of an LMS vector
(`simulatedLms.map(v => Math.max(0, v))` in the source). -/
def clampNonneg (v : Vec3) : Vec3 :=
  ⟨max 0 v.x, max 0 v.y, max 0 v.z⟩

/-- Source `simulateColorBlindness` (`part_003`), translated line by
line; the two gamma functions are abstract parameters. -/
def simulateColorBlindness (pow24 powInv24 : ℚ → ℚ)
    (hex : String) (type : VisionType) : String :=
  if type = VisionType.normal then hex else
  let rgb := hexToRgb hex
  let linearRgb : Vec3 :=
    ⟨srgbToLinear pow24 (rgb.r : ℚ), srgbToLinear pow24 (rgb.g : ℚ),
     srgbToLinear pow24 (rgb.b : ℚ)⟩
  let lms := multiplyMatrix RGB_TO_LMS linearRgb
  let simulatedLms :=
    match type with
    | VisionType.deuteranopia => multiplyMatrix DEUTERANOPIA_MATRIX lms
    | VisionType.protanopia => multiplyMatrix PROTANOPIA_MATRIX lms
    | VisionType.tritanopia => multiplyMatrix TRITANOPIA_MATRIX lms
    | VisionType.normal => lms
  let clamped := clampNonneg simulatedLms
  let simulatedLinearRgb := multiplyMatrix LMS_TO_RGB clamped
  rgbToHex (linearToSrgb powInv24 simulatedLinearRgb.x)
           (linearToSrgb powInv24 simulatedLinearRgb.y)
           (linearToSrgb powInv24 simulatedLinearRgb.z)

/-- Source `colorDifference` (`part_003`): weighted Euclidean distance
in normalized RGB space.  `sqrtF` stands for `Math.sqrt`, abstracted as
a parameter. -/
def colorDifference (sqrtF : ℚ → ℚ) (hex1 hex2 : String) : ℚ :=
  let rgb1 := hexToRgb hex1
  let rgb2 := hexToRgb hex2
  let dr := ((rgb1.r : ℚ) - (rgb2.r : ℚ)) / 255
  let dg := ((rgb1.g : ℚ) - (rgb2.g : ℚ)) / 255
  let db := ((rgb1.b : ℚ) - (rgb2.b : ℚ)) / 255
  sqrtF (dr * dr * 0.3 + dg * dg * 0.59 + db * db * 0.11) * 100

/-- Source `areColorsDistinguishable` (`part_003`). -/
def areColorsDistinguishable (pow24 powInv24 sqrtF : ℚ → ℚ)
    (hex1 hex2 : String) (visionType : VisionType) (threshold : ℚ) : Bool :=
  let simulated1 := simulateColorBlindness pow24 powInv24 hex1 visionType
  let simulated2 := simulateColorBlindness pow24 powInv24 hex2 visionType
  decide (threshold ≤ colorDifference sqrtF simulated1 simulated2)

/-- A named palette color, input of `analyzeColorPalette` (`part_003`). -/
structure NamedColor where
  name : String
  hex : String
  deriving DecidableEq

/-- One side of a reported issue: the input color together with its
simulated appearance (`{ ...colors[i], simulated: sim }`). -/
structure IssueColor where
  name : String
  hex : String
  simulated : String
  deriving DecidableEq

/-- One entry of the `issues` array of `analyzeColorPalette`. -/
structure PaletteIssue where
  color1 : IssueColor
  color2 : IssueColor
  difference : ℚ
  deriving DecidableEq

/-- Result record of `analyzeColorPalette` (`part_003`,
`ColorBlindnessAnalysis`). -/
structure ColorBlindnessAnalysis where
  visionType : VisionType
  issues : List PaletteIssue
  isAccessible : Bool
  deriving DecidableEq

/-- The nested `for i / for j = i+1` loops of `analyzeColorPalette`:
for each color, compare it against every later color and report a pair
whose simulated difference is strictly below the threshold. -/
def issuesLoop (pow24 powInv24 sqrtF : ℚ → ℚ) (visionType : VisionType)
    (threshold : ℚ) : List NamedColor → List PaletteIssue
  | [] => []
  | c :: rest =>
    rest.filterMap (fun c2 =>
      let sim1 := simulateColorBlindness pow24 powInv24 c.hex visionType
      let sim2 := simulateColorBlindness pow24 powInv24 c2.hex visionType
      let difference := colorDifference sqrtF sim1 sim2
      if difference < threshold then
        some ⟨⟨c.name, c.hex, sim1⟩, ⟨c2.name, c2.hex, sim2⟩, difference⟩
      else none) ++ issuesLoop pow24 powInv24 sqrtF visionType threshold rest

/-- Source `analyzeColorPalette` (`part_003`); `isAccessible` is the
source `issues.length === 0`. -/
def analyzeColorPalette (pow24 powInv24 sqrtF : ℚ → ℚ)
    (colors : List NamedColor) (visionType : VisionType) (threshold : ℚ) :
    ColorBlindnessAnalysis :=
  let issues := issuesLoop pow24 powInv24 sqrtF visionType threshold colors
  ⟨visionType, issues, issues.length == 0⟩

/-! ### Model of the chroma-js conversions used by `useDesignSystem.ts`

`hexToHsl`, `hslToHex` and `calculateContrast` in
`src/src/hooks/useDesignSystem.ts` delegate to the `chroma-js`
dependency, whose code is not under `src/`.  The next definitions are
modelled from the spec: the standard sRGB HSL conversion and the WCAG
2.x relative-luminance contrast that the spec names for this module
(`hex⇄HSL conversion`, `WCAG contrast-ratio computation`), following
chroma-js's published formulas.  Named CSS colors and alpha channels
are outside the model: the parser accepts the 6-digit and 3-digit hex
forms. -/

/-- Modelled from the spec: chroma-js hex parsing (`css2rgb` hex
branch), restricted to `#rrggbb` and `#rgb` forms with optional `#`. -/
def chromaParse (s : String) : Option Rgb :=
  match stripHash s.toList with
  | [c1, c2, c3, c4, c5, c6] =>
    if isHexDigit c1 && isHexDigit c2 && isHexDigit c3 &&
       isHexDigit c4 && isHexDigit c5 && isHexDigit c6 then
      some ⟨16 * hexDigitVal c1 + hexDigitVal c2,
            16 * hexDigitVal c3 + hexDigitVal c4,
            16 * hexDigitVal c5 + hexDigitVal c6⟩
    else none
  | [c1, c2, c3] =>
    if isHexDigit c1 && isHexDigit c2 && isHexDigit c3 then
      some ⟨17 * hexDigitVal c1, 17 * hexDigitVal c2, 17 * hexDigitVal c3⟩
    else none
  | _ => none

/-- Modelled from the spec: chroma-js `rgb2hsl` on channels already
normalized to `[0, 1]`.  Returns `(h?, s, l)` with `s, l ∈ [0, 1]`;
`h? = none` models the `NaN` hue of achromatic colors. -/
def rgb2hslQ (r g b : ℚ) : Option ℚ × ℚ × ℚ :=
  let minRgb := min r (min g b)
  let maxRgb := max r (max g b)
  let l := (maxRgb + minRgb) / 2
  if maxRgb = minRgb then (none, 0, l)
  else
    let s := if l < 1/2 then (maxRgb - minRgb) / (maxRgb + minRgb)
             else (maxRgb - minRgb) / (2 - maxRgb - minRgb)
    let hraw :=
      if r = maxRgb then (g - b) / (maxRgb - minRgb)
      else if g = maxRgb then 2 + (b - r) / (maxRgb - minRgb)
      else 4 + (r - g) / (maxRgb - minRgb)
    let h60 := hraw * 60
    (some (if h60 < 0 then h60 + 360 else h60), s, l)

/-- Modelled from the spec: chroma-js `rgb2hsl` (channels are divided
by 255 first). -/
def rgb2hsl (c : Rgb) : Option ℚ × ℚ × ℚ :=
  rgb2hslQ ((c.r : ℚ) / 255) ((c.g : ℚ) / 255) ((c.b : ℚ) / 255)

/-- Modelled from the spec: one channel of chroma-js `hsl2rgb` (the
classic `t1`/`t2` hue interpolation), before the `* 255` scaling. -/
def hue2rgbChannel (t1 t2 t3w : ℚ) : ℚ :=
  let t3 := if t3w < 0 then t3w + 1 else if 1 < t3w then t3w - 1 else t3w
  if 6 * t3 < 1 then t1 + (t2 - t1) * 6 * t3
  else if 2 * t3 < 1 then t2
  else if 3 * t3 < 2 then t1 + (t2 - t1) * (2/3 - t3) * 6
  else t1

/-- Modelled from the spec: chroma-js `hsl2rgb` with `s, l ∈ [0, 1]`,
producing channels scaled to `[0, 255]`. -/
def hsl2rgb (h s l : ℚ) : ℚ × ℚ × ℚ :=
  if s = 0 then (l * 255, l * 255, l * 255)
  else
    let t2 := if l < 1/2 then l * (1 + s) else l + s - l * s
    let t1 := 2 * l - t2
    let h6 := h / 360
    (hue2rgbChannel t1 t2 (h6 + 1/3) * 255,
     hue2rgbChannel t1 t2 h6 * 255,
     hue2rgbChannel t1 t2 (h6 - 1/3) * 255)

/-- Modelled from the spec: chroma-js `.hex()` output — channels are
clipped to `[0, 255]` (the constructor's `clip_rgb`), rounded, and
printed as lowercase `#rrggbb`. -/
def chromaRgbToHex (r g b : ℚ) : String :=
  ⟨'#' :: (byteToHex (roundClampByte r) ++ byteToHex (roundClampByte g)
        ++ byteToHex (roundClampByte b))⟩

/-- An HSL triple as stored in the design-system state
(`{ h, s, l }` with `s`, `l` on the 0–100 scale). -/
structure Hsl where
  h : ℚ
  s : ℚ
  l : ℚ
  deriving DecidableEq

/-- The `try` branch of the source `hexToHsl`
(`useDesignSystem.ts`): chroma conversion followed by the rounding
`h: isNaN(h) ? 0 : Math.round(h), s: Math.round((s || 0) * 100),
l: Math.round((l || 0) * 100)`. -/
def hexToHslAux (hex : String) : Option Hsl :=
  match chromaParse hex with
  | none => none
  | some rgb =>
    let hsl := rgb2hsl rgb
    some ⟨(match hsl.1 with
           | none => 0
           | some hv => (jsRound hv : ℚ)),
          (jsRound (hsl.2.1 * 100) : ℚ),
          (jsRound (hsl.2.2 * 100) : ℚ)⟩

/-- Source `hexToHsl` (`useDesignSystem.ts`): the `catch` branch
returns `{ h: 0, s: 0, l: 50 }`. -/
def hexToHsl (hex : String) : Hsl :=
  (hexToHslAux hex).getD ⟨0, 0, 50⟩

/-- The `try` branch of the source `hslToHex` (`useDesignSystem.ts`):
`chroma.hsl(h, s/100, l/100).hex()`.  For numeric inputs chroma's
constructor does not throw, so this branch is total (always `some`). -/
def hslToHexAux (h s l : ℚ) : Option String :=
  let rgb := hsl2rgb h (s / 100) (l / 100)
  some (chromaRgbToHex rgb.1 rgb.2.1 rgb.2.2)

/-- Source `hslToHex` (`useDesignSystem.ts`): the `catch` branch
returns `"#808080"`. -/
def hslToHex (h s l : ℚ) : String :=
  (hslToHexAux h s l).getD "#808080"

/-- Modelled from the spec: one linearized channel of the WCAG 2.x
relative luminance as computed by chroma-js (`luminance_x`); `pow24`
again stands for `Math.pow(·, 2.4)`. -/
def luminance_x (pow24 : ℚ → ℚ) (channel : ℕ) : ℚ :=
  let x := (channel : ℚ) / 255
  if x ≤ 0.03928 then x / 12.92 else pow24 ((x + 0.055) / 1.055)

/-- Modelled from the spec: WCAG 2.x relative luminance
`0.2126 R + 0.7152 G + 0.0722 B`. -/
def relativeLuminance (pow24 : ℚ → ℚ) (c : Rgb) : ℚ :=
  0.2126 * luminance_x pow24 c.r + 0.7152 * luminance_x pow24 c.g +
    0.0722 * luminance_x pow24 c.b

/-- Modelled from the spec: the WCAG contrast ratio
`(Lmax + 0.05) / (Lmin + 0.05)` (chroma-js `contrast`). -/
def wcagContrast (pow24 : ℚ → ℚ) (c1 c2 : Rgb) : ℚ :=
  let l1 := relativeLuminance pow24 c1
  let l2 := relativeLuminance pow24 c2
  if l2 < l1 then (l1 + 0.05) / (l2 + 0.05) else (l2 + 0.05) / (l1 + 0.05)

/-- Source `calculateContrast` (`useDesignSystem.ts`):
`chroma.contrast(hex1, hex2)`, with the `catch` branch returning `1`
when either color fails to parse. -/
def calculateContrast (pow24 : ℚ → ℚ) (hex1 hex2 : String) : ℚ :=
  match chromaParse hex1, chromaParse hex2 with
  | some c1, some c2 => wcagContrast pow24 c1 c2
  | _, _ => 1

/-! ### `src/src/hooks/useColorScales.ts` -/

/-- JavaScript `%` on integers: truncated remainder. -/
def jsMod (a n : ℤ) : ℤ := Int.tmod a n

/-- Harmony types (`useColorScales.ts`). -/
inductive HarmonyType where
  | complementary
  | analogous
  | triadic
  | splitComplementary
  deriving DecidableEq

/-- Source `SHADE_STEPS` (`useColorScales.ts`). -/
def SHADE_STEPS : List ℤ := [50, 100, 200, 300, 400, 500, 600, 700, 800, 900, 950]

/-- Source `ColorShade` (`useColorScales.ts`). -/
structure ColorShade where
  step : ℤ
  lightness : ℤ
  hex : String
  deriving DecidableEq

/-- Source `ColorScale` (`useColorScales.ts`). -/
structure ColorScale where
  name : String
  baseHue : ℤ
  saturation : ℤ
  shades : List ColorShade
  deriving DecidableEq

/-- Source `ColorHarmonyConfig` (`useColorScales.ts`); the UI sliders
keep `baseHue ∈ [0, 360]`, `saturation ∈ [0, 100]`, `spacing ∈ [10, 60]`
(all integers), so the numeric fields are modelled by `ℤ`. -/
structure ColorHarmonyConfig where
  type : HarmonyType
  baseHue : ℤ
  saturation : ℤ
  spacing : ℤ
  deriving DecidableEq

/-- Source `ColorHarmonyResult` (`useColorScales.ts`). -/
structure ColorHarmonyResult where
  config : ColorHarmonyConfig
  scales : List ColorScale
  deriving DecidableEq

/-- Source `generateScale` (`useColorScales.ts`).  The HSLuv color of a
shade is produced by the third-party `Hsluv` converter (not under
`src/`), abstracted as the parameter `hsluvToHex` taking hue,
saturation and lightness. -/
def generateScale (hsluvToHex : ℤ → ℤ → ℤ → String)
    (hue saturation : ℤ) (name : String) : ColorScale :=
  let shades := SHADE_STEPS.map fun step =>
    let lightness : ℤ :=
      if step = 50 then 97 else if step = 950 then 5 else 100 - step / 10
    ColorShade.mk step lightness (hsluvToHex hue saturation lightness)
  ⟨name, hue, saturation, shades⟩

/-- Source `getComplementaryHue` (`useColorScales.ts`). -/
def getComplementaryHue (hue : ℤ) : ℤ := jsMod (hue + 180) 360

/-- Source `getAnalogousHues` (`useColorScales.ts`). -/
def getAnalogousHues (hue spacing : ℤ) : ℤ × ℤ :=
  (jsMod (hue + spacing) 360, jsMod (hue - spacing + 360) 360)

/-- Source `getTriadicHues` (`useColorScales.ts`). -/
def getTriadicHues (hue : ℤ) : ℤ × ℤ :=
  (jsMod (hue + 120) 360, jsMod (hue + 240) 360)

/-- Source `getSplitComplementaryHues` (`useColorScales.ts`). -/
def getSplitComplementaryHues (hue spacing : ℤ) : ℤ × ℤ :=
  let complement := getComplementaryHue hue
  (jsMod (complement + spacing) 360, jsMod (complement - spacing + 360) 360)

/-- Source `generateHarmony` (`useColorScales.ts`). -/
def generateHarmony (hsluvToHex : ℤ → ℤ → ℤ → String)
    (config : ColorHarmonyConfig) : ColorHarmonyResult :=
  let primary := generateScale hsluvToHex config.baseHue config.saturation "primary"
  let extra : List ColorScale :=
    match config.type with
    | HarmonyType.complementary =>
      let complementHue := getComplementaryHue config.baseHue
      [generateScale hsluvToHex complementHue config.saturation "complementary"]
    | HarmonyType.analogous =>
      let hues := getAnalogousHues config.baseHue config.spacing
      [generateScale hsluvToHex hues.1 config.saturation "analogous-1",
       generateScale hsluvToHex hues.2 config.saturation "analogous-2"]
    | HarmonyType.triadic =>
      let hues := getTriadicHues config.baseHue
      [generateScale hsluvToHex hues.1 config.saturation "triadic-1",
       generateScale hsluvToHex hues.2 config.saturation "triadic-2"]
    | HarmonyType.splitComplementary =>
      let hues := getSplitComplementaryHues config.baseHue config.spacing
      [generateScale hsluvToHex hues.1 config.saturation "split-1",
       generateScale hsluvToHex hues.2 config.saturation "split-2"]
  ⟨config, primary :: extra⟩

/-! ### `src/src/hooks/useDesignSystem.ts`: palette data and operations -/

/-- Source `ColorRole` (`useDesignSystem.ts`). -/
inductive ColorRole where
  | background
  | surface
  | text
  | textMuted
  | primary
  | secondary
  | accent
  deriving DecidableEq

/-- Source `ColorEntry` (`useDesignSystem.ts`). -/
structure ColorEntry where
  id : String
  role : ColorRole
  name : String
  hex : String
  hsl : Hsl
  deriving DecidableEq

/-- Source `ContrastResult` (`useDesignSystem.ts`). -/
structure ContrastResult where
  color1 : ColorEntry
  color2 : ColorEntry
  ratio : ℚ
  aa : Bool
  aaLarge : Bool
  aaa : Bool
  aaaLarge : Bool
  deriving DecidableEq

/-- Source `getContrastResults` (`useDesignSystem.ts`): text colors
against backgrounds first, then brand colors against backgrounds, each
nested loop translated to `flatMap`/`map`. -/
def getContrastResults (pow24 : ℚ → ℚ) (colors : List ColorEntry) :
    List ContrastResult :=
  let textColors := colors.filter fun c =>
    decide (c.role = ColorRole.text ∨ c.role = ColorRole.textMuted)
  let bgColors := colors.filter fun c =>
    decide (c.role = ColorRole.background ∨ c.role = ColorRole.surface)
  let brandColors := colors.filter fun c =>
    decide (c.role = ColorRole.primary ∨ c.role = ColorRole.secondary ∨
            c.role = ColorRole.accent)
  (textColors.flatMap fun text => bgColors.map fun bg =>
    let r := calculateContrast pow24 text.hex bg.hex
    ContrastResult.mk text bg r (decide (9/2 ≤ r)) (decide (3 ≤ r))
      (decide (7 ≤ r)) (decide (9/2 ≤ r))) ++
  (brandColors.flatMap fun brand => bgColors.map fun bg =>
    let r := calculateContrast pow24 brand.hex bg.hex
    ContrastResult.mk brand bg r (decide (9/2 ≤ r)) (decide (3 ≤ r))
      (decide (7 ≤ r)) (decide (9/2 ≤ r)))

/-- Source `isPaletteDark` (`useDesignSystem.ts`): the first color with
role `background` has lightness below 30 (`false` when there is none). -/
def isPaletteDark (colors : List ColorEntry) : Bool :=
  match colors.find? fun c => decide (c.role = ColorRole.background) with
  | some bg => decide (bg.hsl.l < 30)
  | none => false

/-- Source `generateDarkPalette` (`useDesignSystem.ts`), translated
case by case.  The source's `default` branch (`newL = 100 - hsl.l`) is
unreachable because the seven roles are covered explicitly. -/
def generateDarkPalette (lightColors : List ColorEntry) : List ColorEntry :=
  let alreadyDark := isPaletteDark lightColors
  lightColors.map fun color =>
    let hsl := color.hsl
    let p : ℚ × ℚ :=
      if alreadyDark then
        match color.role with
        | ColorRole.background => (98, min hsl.s 5)
        | ColorRole.surface => (100, 0)
        | ColorRole.text => (10, min hsl.s 10)
        | ColorRole.textMuted => (40, min hsl.s 10)
        | ColorRole.primary | ColorRole.secondary | ColorRole.accent =>
          (max 35 (min 55 hsl.l), min hsl.s 85)
      else
        match color.role with
        | ColorRole.background => (8, min hsl.s 15)
        | ColorRole.surface => (12, min hsl.s 20)
        | ColorRole.text => (95, min hsl.s 5)
        | ColorRole.textMuted => (65, min hsl.s 10)
        | ColorRole.primary | ColorRole.secondary | ColorRole.accent =>
          ((if hsl.l < 40 then hsl.l + 25
            else if 70 < hsl.l then hsl.l - 15
            else min 65 (hsl.l + 10)), min hsl.s 80)
    { color with hex := hslToHex hsl.h p.2 p.1, hsl := ⟨hsl.h, p.2, p.1⟩ }

/-! ### `src/src/lib/urlStateEncoder.ts`

The shared state is serialized with `JSON.stringify`, compressed with
the third-party LZ-string library, and decoded by the reverse chain.
`JSON.stringify`/`JSON.parse` and the LZ-string pair are not under
`src/`; they are abstracted as function parameters, with their
round-trip behaviour stated as hypotheses where a claim needs it.  The
JSON value tree itself is modelled explicitly so that the repository's
own serialization shape and `decodeState` validation are concrete. -/

/-- A JSON value (JavaScript numbers as `ℚ`). -/
inductive Json where
  | str : String → Json
  | num : ℚ → Json
  | bool : Bool → Json
  | null : Json
  | arr : List Json → Json
  | obj : List (String × Json) → Json

/-- Source `TypographyScale` steps (`useDesignSystem.ts`). -/
structure TypoStep where
  name : String
  size : ℚ
  lineHeight : ℚ
  deriving DecidableEq

/-- Source `TypographyScale` (`useDesignSystem.ts`). -/
structure TypographyScale where
  baseSize : ℚ
  scaleRatio : ℚ
  headingFont : String
  bodyFont : String
  steps : List TypoStep
  deriving DecidableEq

/-- Source `ShareableState` (`urlStateEncoder.ts`). -/
structure ShareableState where
  colors : List ColorEntry
  typography : TypographyScale
  colorScalesConfig : ColorHarmonyConfig
  colorScalesEnabled : Bool
  fullSystemEnabled : Bool
  deriving DecidableEq

/-- JSON name of a `ColorRole` (the TypeScript string literal). -/
def roleToString : ColorRole → String
  | ColorRole.background => "background"
  | ColorRole.surface => "surface"
  | ColorRole.text => "text"
  | ColorRole.textMuted => "textMuted"
  | ColorRole.primary => "primary"
  | ColorRole.secondary => "secondary"
  | ColorRole.accent => "accent"

/-- Parse a `ColorRole` back from its JSON name. -/
def stringToRole (s : String) : Option ColorRole :=
  if s = "background" then some ColorRole.background
  else if s = "surface" then some ColorRole.surface
  else if s = "text" then some ColorRole.text
  else if s = "textMuted" then some ColorRole.textMuted
  else if s = "primary" then some ColorRole.primary
  else if s = "secondary" then some ColorRole.secondary
  else if s = "accent" then some ColorRole.accent
  else none

/-- JSON name of a `HarmonyType` (the TypeScript string literal). -/
def harmonyTypeToString : HarmonyType → String
  | HarmonyType.complementary => "complementary"
  | HarmonyType.analogous => "analogous"
  | HarmonyType.triadic => "triadic"
  | HarmonyType.splitComplementary => "split-complementary"

/-- Parse a `HarmonyType` back from its JSON name. -/
def stringToHarmonyType (s : String) : Option HarmonyType :=
  if s = "complementary" then some HarmonyType.complementary
  else if s = "analogous" then some HarmonyType.analogous
  else if s = "triadic" then some HarmonyType.triadic
  else if s = "split-complementary" then some HarmonyType.splitComplementary
  else none

/-- `JSON.stringify` shape of an `Hsl`. -/
def hslToJson (x : Hsl) : Json :=
  Json.obj [("h", Json.num x.h), ("s", Json.num x.s), ("l", Json.num x.l)]

/-- `JSON.stringify` shape of a `ColorEntry`. -/
def colorEntryToJson (c : ColorEntry) : Json :=
  Json.obj [("id", Json.str c.id), ("role", Json.str (roleToString c.role)),
            ("name", Json.str c.name), ("hex", Json.str c.hex),
            ("hsl", hslToJson c.hsl)]

/-- `JSON.stringify` shape of a typography step. -/
def typoStepToJson (t : TypoStep) : Json :=
  Json.obj [("name", Json.str t.name), ("size", Json.num t.size),
            ("lineHeight", Json.num t.lineHeight)]

/-- `JSON.stringify` shape of the typography scale. -/
def typographyToJson (t : TypographyScale) : Json :=
  Json.obj [("baseSize", Json.num t.baseSize),
            ("scaleRatio", Json.num t.scaleRatio),
            ("headingFont", Json.str t.headingFont),
            ("bodyFont", Json.str t.bodyFont),
            ("steps", Json.arr (t.steps.map typoStepToJson))]

/-- `JSON.stringify` shape of the harmony config. -/
def configToJson (c : ColorHarmonyConfig) : Json :=
  Json.obj [("type", Json.str (harmonyTypeToString c.type)),
            ("baseHue", Json.num (c.baseHue : ℚ)),
            ("saturation", Json.num (c.saturation : ℚ)),
            ("spacing", Json.num (c.spacing : ℚ))]

/-- `JSON.stringify` shape of the whole `ShareableState`. -/
def stateToJson (st : ShareableState) : Json :=
  Json.obj [("colors", Json.arr (st.colors.map colorEntryToJson)),
            ("typography", typographyToJson st.typography),
            ("colorScalesConfig", configToJson st.colorScalesConfig),
            ("colorScalesEnabled", Json.bool st.colorScalesEnabled),
            ("fullSystemEnabled", Json.bool st.fullSystemEnabled)]

/-- Property lookup on a JSON object (`value["key"]`). -/
def jsonLookup (fields : List (String × Json)) (key : String) : Option Json :=
  (fields.find? fun p => p.1 == key).map fun p => p.2

/-- Read every element of a JSON array, failing if any element fails
(the elementwise reading the TypeScript cast assumes). -/
def optionMapList {α β : Type} (f : α → Option β) : List α → Option (List β)
  | [] => some []
  | x :: xs => do
    let y ← f x
    let ys ← optionMapList f xs
    pure (y :: ys)

/-- Read a JSON string. -/
def asStr : Json → Option String
  | Json.str s => some s
  | _ => none

/-- Read a JSON number. -/
def asNum : Json → Option ℚ
  | Json.num q => some q
  | _ => none

/-- Read a JSON boolean. -/
def asBool : Json → Option Bool
  | Json.bool b => some b
  | _ => none

/-- Read a JSON object's fields. -/
def asObj : Json → Option (List (String × Json))
  | Json.obj fields => some fields
  | _ => none

/-- Typed reading of an `Hsl` from JSON (the shape the TypeScript cast
`as ShareableState` assumes). -/
def jsonToHsl (j : Json) : Option Hsl := do
  let o ← asObj j
  let h ← (jsonLookup o "h").bind asNum
  let s ← (jsonLookup o "s").bind asNum
  let l ← (jsonLookup o "l").bind asNum
  pure ⟨h, s, l⟩

/-- Typed reading of a `ColorEntry` from JSON. -/
def jsonToColorEntry (j : Json) : Option ColorEntry := do
  let o ← asObj j
  let id ← (jsonLookup o "id").bind asStr
  let role ← ((jsonLookup o "role").bind asStr).bind stringToRole
  let name ← (jsonLookup o "name").bind asStr
  let hex ← (jsonLookup o "hex").bind asStr
  let hsl ← (jsonLookup o "hsl").bind jsonToHsl
  pure ⟨id, role, name, hex, hsl⟩

/-- Typed reading of a typography step from JSON. -/
def jsonToTypoStep (j : Json) : Option TypoStep := do
  let o ← asObj j
  let name ← (jsonLookup o "name").bind asStr
  let size ← (jsonLookup o "size").bind asNum
  let lineHeight ← (jsonLookup o "lineHeight").bind asNum
  pure ⟨name, size, lineHeight⟩

/-- Typed reading of the typography scale from JSON. -/
def jsonToTypography (j : Json) : Option TypographyScale := do
  let o ← asObj j
  let baseSize ← (jsonLookup o "baseSize").bind asNum
  let scaleRatio ← (jsonLookup o "scaleRatio").bind asNum
  let headingFont ← (jsonLookup o "headingFont").bind asStr
  let bodyFont ← (jsonLookup o "bodyFont").bind asStr
  let stepsJson ← jsonLookup o "steps"
  match stepsJson with
  | Json.arr items => do
    let steps ← optionMapList jsonToTypoStep items
    pure ⟨baseSize, scaleRatio, headingFont, bodyFont, steps⟩
  | _ => none

/-- Typed reading of the harmony config from JSON; the integral fields
are read back with `ℚ.num`-style truncation via `⌊·⌋`. -/
def jsonToConfig (j : Json) : Option ColorHarmonyConfig := do
  let o ← asObj j
  let type ← ((jsonLookup o "type").bind asStr).bind stringToHarmonyType
  let baseHue ← (jsonLookup o "baseHue").bind asNum
  let saturation ← (jsonLookup o "saturation").bind asNum
  let spacing ← (jsonLookup o "spacing").bind asNum
  pure ⟨type, ⌊baseHue⌋, ⌊saturation⌋, ⌊spacing⌋⟩

/-- The parsed-object handling of the source `decodeState`: the
`JSON.parse` result is cast to `ShareableState` after checking that
`state.colors` is an array and `state.typography` is present.  The
typed field extraction models the cast. -/
def jsonToState (j : Json) : Option ShareableState := do
  let o ← asObj j
  let colorsJson ← jsonLookup o "colors"
  let colors ←
    match colorsJson with
    | Json.arr items => optionMapList jsonToColorEntry items
    | _ => none
  let typographyJson ← jsonLookup o "typography"
  let typography ← jsonToTypography typographyJson
  let config ← (jsonLookup o "colorScalesConfig").bind jsonToConfig
  let scalesEnabled ← (jsonLookup o "colorScalesEnabled").bind asBool
  let fullEnabled ← (jsonLookup o "fullSystemEnabled").bind asBool
  pure ⟨colors, typography, config, scalesEnabled, fullEnabled⟩

/-- Source `encodeState` (`urlStateEncoder.ts`):
`compress(JSON.stringify(state))`, with `JSON.stringify` and the
LZ-string compressor abstracted as parameters. -/
def encodeState (stringifyJ : Json → String) (compress : String → String)
    (state : ShareableState) : String :=
  compress (stringifyJ (stateToJson state))

/-- Source `decodeState` (`urlStateEncoder.ts`): decompress (`none`
models the library returning `null`), reject the falsy empty string,
parse the JSON (`none` models a `JSON.parse` throw caught by the
source's `catch`), then validate and cast. -/
def decodeState (parseJson : String → Option Json)
    (decompress : String → Option String) (encoded : String) :
    Option ShareableState :=
  match decompress encoded with
  | none => none
  | some json =>
    if json = "" then none
    else
      match parseJson json with
      | none => none
      | some j => jsonToState j

/-! ### Spec-side definitions

Each definition below is written from the wording of one claim in the
natural-language specification, to be compared with the source
translation above. -/

/-- Spec C1: sRGB channel to linear RGB, "threshold 0.04045,
exponent 2.4". -/
def specLinearize (pow24 : ℚ → ℚ) (channel : ℕ) : ℚ :=
  if (channel : ℚ) / 255 ≤ 0.04045 then ((channel : ℚ) / 255) / 12.92
  else pow24 (((channel : ℚ) / 255 + 0.055) / 1.055)

/-- Spec C1: linear RGB value back to an sRGB transfer-coded value
(the standard inverse of the 0.04045 / 2.4 transfer function). -/
def specDelinearize (powInv24 : ℚ → ℚ) (v : ℚ) : ℚ :=
  if v ≤ 0.0031308 then v * 12.92 else 1.055 * powInv24 v - 0.055

/-- Spec C1: the simulation matrix of each dichromatic vision type
(identity for normal vision, which the claim does not cover). -/
def specSimMatrix : VisionType → Mat3
  | VisionType.deuteranopia => DEUTERANOPIA_MATRIX
  | VisionType.protanopia => PROTANOPIA_MATRIX
  | VisionType.tritanopia => TRITANOPIA_MATRIX
  | VisionType.normal => ⟨⟨1, 0, 0⟩, ⟨0, 1, 0⟩, ⟨0, 0, 1⟩⟩

/-- Spec C1: a channel "rounded and clamped to [0, 255]". -/
def specRoundClamp (q : ℚ) : ℕ :=
  (min 255 (max 0 (jsRound q))).toNat

/-- Spec C1: the LMS cone-response pipeline, step by step as the claim
enumerates it: linearize the parsed channels, multiply by
`RGB_TO_LMS`, multiply by the type's simulation matrix, clamp negative
LMS components to 0, multiply by `LMS_TO_RGB`, convert back to sRGB
rounding and clamping each channel, and print as lowercase hex. -/
def specLmsPipeline (pow24 powInv24 : ℚ → ℚ) (c : Rgb) (t : VisionType) :
    String :=
  let linear : Vec3 :=
    ⟨specLinearize pow24 c.r, specLinearize pow24 c.g, specLinearize pow24 c.b⟩
  let lms := multiplyMatrix RGB_TO_LMS linear
  let sim := multiplyMatrix (specSimMatrix t) lms
  let clamped : Vec3 := ⟨max 0 sim.x, max 0 sim.y, max 0 sim.z⟩
  let rgbLinear := multiplyMatrix LMS_TO_RGB clamped
  let channel := fun v => specRoundClamp (specDelinearize powInv24 v * 255)
  ⟨'#' :: (byteToHex (channel rgbLinear.x) ++ byteToHex (channel rgbLinear.y)
        ++ byteToHex (channel rgbLinear.z))⟩

/-- Spec C2: the non-primary hues of each harmony type, with
mathematical `mod 360` (`Int.emod`). -/
def specHarmonyHues : HarmonyType → ℤ → ℤ → List ℤ
  | HarmonyType.complementary, baseHue, _ => [(baseHue + 180) % 360]
  | HarmonyType.analogous, baseHue, spacing =>
    [(baseHue + spacing) % 360, (baseHue - spacing) % 360]
  | HarmonyType.triadic, baseHue, _ =>
    [(baseHue + 120) % 360, (baseHue + 240) % 360]
  | HarmonyType.splitComplementary, baseHue, spacing =>
    [((baseHue + 180) % 360 + spacing) % 360,
     ((baseHue + 180) % 360 - spacing) % 360]

/-- The scale names the source gives to the non-primary scales (the
claim does not constrain them). -/
def specHarmonyNames : HarmonyType → List String
  | HarmonyType.complementary => ["complementary"]
  | HarmonyType.analogous => ["analogous-1", "analogous-2"]
  | HarmonyType.triadic => ["triadic-1", "triadic-2"]
  | HarmonyType.splitComplementary => ["split-1", "split-2"]

/-- Spec C2: the expected scale list — the primary scale for the base
hue first, then one scale per harmony hue, all at the config's
saturation. -/
def specHarmonyScales (hsluvToHex : ℤ → ℤ → ℤ → String)
    (config : ColorHarmonyConfig) : List ColorScale :=
  generateScale hsluvToHex config.baseHue config.saturation "primary" ::
    List.zipWith (fun hue name => generateScale hsluvToHex hue config.saturation name)
      (specHarmonyHues config.type config.baseHue config.spacing)
      (specHarmonyNames config.type)

/-- Spec C3: the pairs a contrast check covers — (text, textMuted) ×
(background, surface), then (primary, secondary, accent) ×
(background, surface). -/
def specContrastPairs (colors : List ColorEntry) :
    List (ColorEntry × ColorEntry) :=
  let textColors := colors.filter fun c =>
    decide (c.role = ColorRole.text ∨ c.role = ColorRole.textMuted)
  let bgColors := colors.filter fun c =>
    decide (c.role = ColorRole.background ∨ c.role = ColorRole.surface)
  let brandColors := colors.filter fun c =>
    decide (c.role = ColorRole.primary ∨ c.role = ColorRole.secondary ∨
            c.role = ColorRole.accent)
  textColors.product bgColors ++ brandColors.product bgColors

/-- Spec C3: one expected contrast result — the WCAG
relative-luminance contrast ratio of the pair, with `aa` iff the ratio
is at least 4.5, `aaLarge` iff at least 3, `aaa` iff at least 7 and
`aaaLarge` iff at least 4.5. -/
def specContrastResult (pow24 : ℚ → ℚ) (p : ColorEntry × ColorEntry) :
    ContrastResult :=
  let r := wcagContrast pow24 ((chromaParse p.1.hex).getD ⟨0, 0, 0⟩)
             ((chromaParse p.2.hex).getD ⟨0, 0, 0⟩)
  ⟨p.1, p.2, r, decide (9/2 ≤ r), decide (3 ≤ r), decide (7 ≤ r),
   decide (9/2 ≤ r)⟩

/-- Spec C4: the light→dark mapping of one palette color, by role,
preserving the hue: background to lightness 8 with saturation capped
at 15, surface to 12/20, text to 95/5, textMuted to 65/10, and brand
roles to `l+25` when `l < 40`, `l-15` when `l > 70`, otherwise
`min 65 (l+10)`, with saturation capped at 80.  (The claim says
nothing about the stored hex string, which the source recomputes with
`hslToHex`.) -/
def specDarkEntry (color : ColorEntry) : ColorEntry :=
  let hsl := color.hsl
  let p : ℚ × ℚ :=
    match color.role with
    | ColorRole.background => (8, min hsl.s 15)
    | ColorRole.surface => (12, min hsl.s 20)
    | ColorRole.text => (95, min hsl.s 5)
    | ColorRole.textMuted => (65, min hsl.s 10)
    | ColorRole.primary | ColorRole.secondary | ColorRole.accent =>
      ((if hsl.l < 40 then hsl.l + 25
        else if 70 < hsl.l then hsl.l - 15
        else min 65 (hsl.l + 10)), min hsl.s 80)
  { color with hex := hslToHex hsl.h p.2 p.1, hsl := ⟨hsl.h, p.2, p.1⟩ }

/-- Spec C4: the already-dark branch — "the light version defined by
the alreadyDark branch" of the source. -/
def specAlreadyDarkEntry (color : ColorEntry) : ColorEntry :=
  let hsl := color.hsl
  let p : ℚ × ℚ :=
    match color.role with
    | ColorRole.background => (98, min hsl.s 5)
    | ColorRole.surface => (100, 0)
    | ColorRole.text => (10, min hsl.s 10)
    | ColorRole.textMuted => (40, min hsl.s 10)
    | ColorRole.primary | ColorRole.secondary | ColorRole.accent =>
      (max 35 (min 55 hsl.l), min hsl.s 85)
  { color with hex := hslToHex hsl.h p.2 p.1, hsl := ⟨hsl.h, p.2, p.1⟩ }

/-- Spec C9: all ordered index pairs `(i, j)` with `i < j` below `n`,
in the order the nested loops visit them. -/
def indexPairs (n : ℕ) : List (ℕ × ℕ) :=
  (List.range n).flatMap fun i =>
    ((List.range n).filter fun j => decide (i < j)).map fun j => (i, j)

/-- Structural enumeration of the unordered pairs of a list (each
earlier element with each later one). -/
def specAllPairs {α : Type} : List α → List (α × α)
  | [] => []
  | x :: xs => (xs.map fun y => (x, y)) ++ specAllPairs xs

/-- Spec C9: the issue reported for a pair of palette colors — both
colors with their simulated appearance and the simulated difference. -/
def specIssue (pow24 powInv24 sqrtF : ℚ → ℚ) (visionType : VisionType)
    (p : NamedColor × NamedColor) : PaletteIssue :=
  let sim1 := simulateColorBlindness pow24 powInv24 p.1.hex visionType
  let sim2 := simulateColorBlindness pow24 powInv24 p.2.hex visionType
  ⟨⟨p.1.name, p.1.hex, sim1⟩, ⟨p.2.name, p.2.hex, sim2⟩,
   colorDifference sqrtF sim1 sim2⟩

/-- Spec C9: whether a pair's simulated colors differ by strictly less
than the threshold. -/
def specPairBelow (pow24 powInv24 sqrtF : ℚ → ℚ) (visionType : VisionType)
    (threshold : ℚ) (p : NamedColor × NamedColor) : Bool :=
  decide (colorDifference sqrtF
    (simulateColorBlindness pow24 powInv24 p.1.hex visionType)
    (simulateColorBlindness pow24 powInv24 p.2.hex visionType) < threshold)

/-- A small concrete shareable state used to instantiate theorems. -/
def sampleState : ShareableState :=
  ⟨[⟨"1", ColorRole.background, "Background", "#ffffff", ⟨0, 0, 100⟩⟩],
   ⟨16, 5/4, "Inter", "Inter", [⟨"base", 16, 8/5⟩]⟩,
   ⟨HarmonyType.complementary, 250, 80, 30⟩, false, false⟩

/-- The canonical lowercase `#rrggbb` spelling of an RGB triple (the
form chroma's `.hex()` prints). -/
def canonicalHex (c : Rgb) : String :=
  chromaRgbToHex (c.r : ℚ) (c.g : ℚ) (c.b : ℚ)

/-- The exact (unrounded) HSL of a color on the repo's 0–360 / 0–100
scales, with the achromatic `NaN` hue defaulted to 0 exactly as
`hexToHsl` does. -/
def exactHsl (c : Rgb) : Hsl :=
  let hsl := rgb2hsl c
  ⟨(hsl.1.getD 0), hsl.2.1 * 100, hsl.2.2 * 100⟩

/-! ### Helper lemmas -/

theorem jsRound_intCast (n : ℤ) : jsRound (n : ℚ) = n := by
  unfold jsRound
  rw [add_comm, Int.floor_add_int]
  norm_num

theorem jsRound_mono {a b : ℚ} (h : a ≤ b) : jsRound a ≤ jsRound b :=
  Int.floor_le_floor (by linarith)

theorem jsRound_zero : jsRound 0 = 0 := by
  have := jsRound_intCast 0
  simpa using this

theorem jsRound_255 : jsRound 255 = 255 := by
  have := jsRound_intCast 255
  simpa using this

theorem jsRound_clamp (q : ℚ) :
    jsRound (max 0 (min 255 q)) = max 0 (min 255 (jsRound q)) := by
  rcases le_total q 0 with hq | hq
  · have h1 : min 255 q = q := min_eq_right (by linarith)
    have h2 : max 0 q = 0 := max_eq_left hq
    have h3 : jsRound q ≤ 0 := jsRound_zero ▸ jsRound_mono hq
    rw [h1, h2, jsRound_zero]
    have h4 : min 255 (jsRound q) = jsRound q := min_eq_right (by omega)
    rw [h4, max_eq_left h3]
  · rcases le_total q 255 with hq2 | hq2
    · have h1 : min 255 q = q := min_eq_right hq2
      rw [h1, max_eq_right hq]
      have h3 : 0 ≤ jsRound q := jsRound_zero ▸ jsRound_mono hq
      have h4 : jsRound q ≤ 255 := jsRound_255 ▸ jsRound_mono hq2
      rw [min_eq_right h4, max_eq_right h3]
    · have h1 : min 255 q = 255 := min_eq_left hq2
      rw [h1]
      have h2 : max (0:ℚ) 255 = 255 := by norm_num
      rw [h2, jsRound_255]
      have h3 : 255 ≤ jsRound q := jsRound_255 ▸ jsRound_mono hq2
      rw [min_eq_left h3]
      omega

/-- The source's clamp-then-round channel (applied to a value that the
source already rounded) agrees with the spec's round-then-clamp. -/
theorem roundClampByte_linear (q : ℚ) :
    roundClampByte ((jsRound (max 0 (min 255 q)) : ℤ) : ℚ) =
      specRoundClamp q := by
  unfold roundClampByte specRoundClamp
  rw [jsRound_intCast, jsRound_clamp]
  congr 1
  omega

/-! ### Claims -/

/-- C8: for every input string, `simulateColorBlindness` with the
`normal` vision type returns the input unchanged. -/
theorem simulateColorBlindness_normal_id (pow24 powInv24 : ℚ → ℚ)
    (hex : String) :
    simulateColorBlindness pow24 powInv24 hex VisionType.normal = hex := rfl

/-- C7: the four color-math operations are pure deterministic
functions of their arguments (in this embedding every dependence is an
explicit argument, including the abstracted library callbacks): equal
inputs give equal outputs. -/
theorem colorMath_pure (pow24 powInv24 sqrtF : ℚ → ℚ)
    (hsluvToHex : ℤ → ℤ → ℤ → String) :
    (∀ h1 h2 t1 t2, h1 = h2 → t1 = t2 →
      simulateColorBlindness pow24 powInv24 h1 t1 =
        simulateColorBlindness pow24 powInv24 h2 t2) ∧
    (∀ a1 a2 b1 b2, a1 = a2 → b1 = b2 →
      colorDifference sqrtF a1 b1 = colorDifference sqrtF a2 b2) ∧
    (∀ c1 c2, c1 = c2 →
      generateHarmony hsluvToHex c1 = generateHarmony hsluvToHex c2) ∧
    (∀ a1 a2 b1 b2, a1 = a2 → b1 = b2 →
      calculateContrast pow24 a1 b1 = calculateContrast pow24 a2 b2) := by
  refine ⟨?_, ?_, ?_, ?_⟩ <;> intros <;> subst_vars <;> rfl

/-- Witness for C7 at concrete inputs. -/
theorem colorMath_pure_witness :
    simulateColorBlindness id id "#336699" VisionType.deuteranopia =
      simulateColorBlindness id id "#336699" VisionType.deuteranopia ∧
    colorDifference id "#000000" "#ffffff" =
      colorDifference id "#000000" "#ffffff" ∧
    generateHarmony (fun _ _ _ => "x") ⟨HarmonyType.triadic, 250, 80, 30⟩ =
      generateHarmony (fun _ _ _ => "x") ⟨HarmonyType.triadic, 250, 80, 30⟩ ∧
    calculateContrast id "#000000" "#ffffff" =
      calculateContrast id "#000000" "#ffffff" :=
  ⟨(colorMath_pure id id id (fun _ _ _ => "x")).1 _ _ _ _ rfl rfl,
   (colorMath_pure id id id (fun _ _ _ => "x")).2.1 _ _ _ _ rfl rfl,
   (colorMath_pure id id id (fun _ _ _ => "x")).2.2.1 _ _ rfl,
   (colorMath_pure id id id (fun _ _ _ => "x")).2.2.2 _ _ _ _ rfl rfl⟩

/-- C2: for every harmony config within the UI's slider ranges
(`0 ≤ baseHue`, `0 ≤ spacing ≤ 360`), `generateHarmony` returns the
primary scale for the base hue first, followed by exactly the scales
at the claim's harmony hues (complement, analogous pair, triadic pair,
or split-complementary pair), all at the config's saturation. -/
theorem generateHarmony_spec (hsluvToHex : ℤ → ℤ → ℤ → String)
    (cfg : ColorHarmonyConfig) (hb : 0 ≤ cfg.baseHue)
    (hs0 : 0 ≤ cfg.spacing) (hs1 : cfg.spacing ≤ 360) :
    (generateHarmony hsluvToHex cfg).scales = specHarmonyScales hsluvToHex cfg := by
  obtain ⟨t, bh, sat, sp⟩ := cfg
  simp only at hb hs0 hs1
  cases t
  case complementary =>
    simp only [generateHarmony, specHarmonyScales, specHarmonyHues,
      specHarmonyNames, getComplementaryHue, jsMod, List.zipWith]
    rw [Int.tmod_eq_emod (by omega) (by omega)]
  case analogous =>
    simp only [generateHarmony, specHarmonyScales, specHarmonyHues,
      specHarmonyNames, getAnalogousHues, jsMod, List.zipWith]
    rw [Int.tmod_eq_emod (by omega) (by omega),
        Int.tmod_eq_emod (by omega) (by omega)]
    have hsub : (bh - sp + 360) % 360 = (bh - sp) % 360 := by omega
    rw [hsub]
  case triadic =>
    simp only [generateHarmony, specHarmonyScales, specHarmonyHues,
      specHarmonyNames, getTriadicHues, jsMod, List.zipWith]
    rw [Int.tmod_eq_emod (by omega) (by omega),
        Int.tmod_eq_emod (by omega) (by omega)]
  case splitComplementary =>
    simp only [generateHarmony, specHarmonyScales, specHarmonyHues,
      specHarmonyNames, getSplitComplementaryHues, getComplementaryHue,
      jsMod, List.zipWith]
    rw [Int.tmod_eq_emod (a := bh + 180) (by omega) (by omega)]
    have hc : 0 ≤ (bh + 180) % 360 := Int.emod_nonneg _ (by omega)
    rw [Int.tmod_eq_emod (by omega) (by omega),
        Int.tmod_eq_emod (by omega) (by omega)]
    have hsub : ((bh + 180) % 360 - sp + 360) % 360 =
        ((bh + 180) % 360 - sp) % 360 := by omega
    rw [hsub]

/-- Witness for C2 at a concrete config. -/
theorem generateHarmony_spec_witness :
    ((0:ℤ) ≤ 250 ∧ (0:ℤ) ≤ 30 ∧ (30:ℤ) ≤ 360) ∧
    (generateHarmony (fun _ _ _ => "c")
        ⟨HarmonyType.splitComplementary, 250, 80, 30⟩).scales =
      specHarmonyScales (fun _ _ _ => "c")
        ⟨HarmonyType.splitComplementary, 250, 80, 30⟩ :=
  ⟨⟨by decide, by decide, by decide⟩,
   generateHarmony_spec (fun _ _ _ => "c")
     ⟨HarmonyType.splitComplementary, 250, 80, 30⟩
     (by decide) (by decide) (by decide)⟩

/-- C1: for every valid 6-digit hex color and every dichromatic vision
type, `simulateColorBlindness` computes exactly the LMS cone-response
pipeline the claim enumerates: sRGB→linear (threshold 0.04045,
exponent 2.4), `RGB_TO_LMS`, the type's simulation matrix, clamping
negative LMS components to 0, `LMS_TO_RGB`, and linear→sRGB with each
channel rounded and clamped to `[0, 255]`. -/
theorem simulateColorBlindness_spec (pow24 powInv24 : ℚ → ℚ) (hex : String)
    (t : VisionType) (c : Rgb) (hparse : hexToRgbAux hex = some c)
    (ht : t ≠ VisionType.normal) :
    simulateColorBlindness pow24 powInv24 hex t =
      specLmsPipeline pow24 powInv24 c t := by
  have hrgb : hexToRgb hex = c := by simp [hexToRgb, hparse]
  unfold simulateColorBlindness specLmsPipeline
  rw [if_neg ht, hrgb]
  cases t with
  | normal => exact absurd rfl ht
  | deuteranopia =>
    simp only [rgbToHex, specSimMatrix, linearToSrgb, specDelinearize,
      srgbToLinear, specLinearize, clampNonneg]
    rw [roundClampByte_linear, roundClampByte_linear, roundClampByte_linear]
  | protanopia =>
    simp only [rgbToHex, specSimMatrix, linearToSrgb, specDelinearize,
      srgbToLinear, specLinearize, clampNonneg]
    rw [roundClampByte_linear, roundClampByte_linear, roundClampByte_linear]
  | tritanopia =>
    simp only [rgbToHex, specSimMatrix, linearToSrgb, specDelinearize,
      srgbToLinear, specLinearize, clampNonneg]
    rw [roundClampByte_linear, roundClampByte_linear, roundClampByte_linear]

/-- Witness for C1 at a concrete color and vision type. -/
theorem simulateColorBlindness_spec_witness :
    (hexToRgbAux "#336699" = some ⟨51, 102, 153⟩ ∧
      VisionType.deuteranopia ≠ VisionType.normal) ∧
    simulateColorBlindness id id "#336699" VisionType.deuteranopia =
      specLmsPipeline id id ⟨51, 102, 153⟩ VisionType.deuteranopia :=
  ⟨⟨by decide, by decide⟩,
   simulateColorBlindness_spec id id "#336699" VisionType.deuteranopia
     ⟨51, 102, 153⟩ (by decide) (by decide)⟩

/-- Congruence for `List.flatMap`. -/
theorem flatMap_congr {α β : Type} {l : List α} {f g : α → List β}
    (h : ∀ a ∈ l, f a = g a) : l.flatMap f = l.flatMap g := by
  induction l with
  | nil => rfl
  | cons x xs ih =>
    simp only [List.flatMap_cons]
    rw [h x (by simp), ih fun a ha => h a (by simp [ha])]

/-- Mapping over a `List.product` is the nested loop. -/
theorem product_map {α β γ : Type} (l1 : List α) (l2 : List β) (F : α × β → γ) :
    (l1.product l2).map F = l1.flatMap fun a => l2.map fun b => F (a, b) := by
  simp only [List.product, List.map_flatMap, List.map_map]
  rfl

/-- C4: for every palette whose (first) background color has lightness
at least 30, `generateDarkPalette` maps each color by role as the
claim describes, preserving its hue; for a background lightness below
30 it instead applies the alreadyDark (light-version) branch. -/
theorem generateDarkPalette_spec (colors : List ColorEntry) (bg : ColorEntry)
    (hfind : colors.find? (fun c => decide (c.role = ColorRole.background)) =
      some bg) :
    (30 ≤ bg.hsl.l →
      generateDarkPalette colors = colors.map specDarkEntry) ∧
    (bg.hsl.l < 30 →
      generateDarkPalette colors = colors.map specAlreadyDarkEntry) := by
  constructor
  · intro hl
    have hdark : isPaletteDark colors = false := by
      unfold isPaletteDark
      rw [hfind]
      simp [not_lt.mpr hl]
    unfold generateDarkPalette
    rw [hdark]
    refine List.map_congr_left ?_
    intro a _
    obtain ⟨id, role, name, hex, hsl⟩ := a
    cases role <;> rfl
  · intro hl
    have hdark : isPaletteDark colors = true := by
      unfold isPaletteDark
      rw [hfind]
      simpa using hl
    unfold generateDarkPalette
    rw [hdark]
    refine List.map_congr_left ?_
    intro a _
    obtain ⟨id, role, name, hex, hsl⟩ := a
    cases role <;> rfl

/-- Witness for C4 at a concrete two-color palette. -/
theorem generateDarkPalette_spec_witness :
    ([ColorEntry.mk "1" ColorRole.background "Background" "#ffffff" ⟨0, 0, 100⟩,
      ColorEntry.mk "2" ColorRole.primary "Primary" "#2563eb" ⟨217, 83, 53⟩].find?
        (fun c => decide (c.role = ColorRole.background)) =
      some (ColorEntry.mk "1" ColorRole.background "Background" "#ffffff" ⟨0, 0, 100⟩) ∧
     (30:ℚ) ≤ 100) ∧
    generateDarkPalette
      [ColorEntry.mk "1" ColorRole.background "Background" "#ffffff" ⟨0, 0, 100⟩,
       ColorEntry.mk "2" ColorRole.primary "Primary" "#2563eb" ⟨217, 83, 53⟩] =
      [ColorEntry.mk "1" ColorRole.background "Background" "#ffffff" ⟨0, 0, 100⟩,
       ColorEntry.mk "2" ColorRole.primary "Primary" "#2563eb" ⟨217, 83, 53⟩].map
        specDarkEntry :=
  ⟨⟨by decide, by decide⟩,
   (generateDarkPalette_spec
     [ColorEntry.mk "1" ColorRole.background "Background" "#ffffff" ⟨0, 0, 100⟩,
      ColorEntry.mk "2" ColorRole.primary "Primary" "#2563eb" ⟨217, 83, 53⟩]
     (ColorEntry.mk "1" ColorRole.background "Background" "#ffffff" ⟨0, 0, 100⟩)
     (by decide)).1 (by decide)⟩

/-- C3: for every palette of parseable colors, `getContrastResults`
produces one result per pair from (text, textMuted) × (background,
surface) followed by (primary, secondary, accent) × (background,
surface), carrying the WCAG relative-luminance contrast ratio and the
flags `aa ↔ ratio ≥ 4.5`, `aaLarge ↔ ratio ≥ 3`, `aaa ↔ ratio ≥ 7`,
`aaaLarge ↔ ratio ≥ 4.5`. -/
theorem getContrastResults_spec (pow24 : ℚ → ℚ) (colors : List ColorEntry)
    (hvalid : ∀ c ∈ colors, (chromaParse c.hex).isSome = true) :
    getContrastResults pow24 colors =
      (specContrastPairs colors).map (specContrastResult pow24) := by
  have key : ∀ a ∈ colors, ∀ b ∈ colors,
      calculateContrast pow24 a.hex b.hex =
        wcagContrast pow24 ((chromaParse a.hex).getD ⟨0, 0, 0⟩)
          ((chromaParse b.hex).getD ⟨0, 0, 0⟩) := by
    intro a ha b hb
    obtain ⟨ca, hca⟩ := Option.isSome_iff_exists.mp (hvalid a ha)
    obtain ⟨cb, hcb⟩ := Option.isSome_iff_exists.mp (hvalid b hb)
    simp [calculateContrast, hca, hcb]
  unfold getContrastResults specContrastPairs
  rw [List.map_append, product_map, product_map]
  dsimp only
  congr 1
  · refine flatMap_congr ?_
    intro t ht
    refine List.map_congr_left ?_
    intro b hb
    simp only [specContrastResult]
    rw [key t (List.mem_of_mem_filter ht) b (List.mem_of_mem_filter hb)]
  · refine flatMap_congr ?_
    intro t ht
    refine List.map_congr_left ?_
    intro b hb
    simp only [specContrastResult]
    rw [key t (List.mem_of_mem_filter ht) b (List.mem_of_mem_filter hb)]

/-- Witness for C3 at a concrete palette. -/
theorem getContrastResults_spec_witness :
    (∀ c ∈ [ColorEntry.mk "1" ColorRole.text "Text" "#111111" ⟨0, 0, 7⟩,
            ColorEntry.mk "2" ColorRole.background "Background" "#ffffff" ⟨0, 0, 100⟩,
            ColorEntry.mk "3" ColorRole.primary "Primary" "#2563eb" ⟨217, 83, 53⟩],
      (chromaParse c.hex).isSome = true) ∧
    getContrastResults id
        [ColorEntry.mk "1" ColorRole.text "Text" "#111111" ⟨0, 0, 7⟩,
         ColorEntry.mk "2" ColorRole.background "Background" "#ffffff" ⟨0, 0, 100⟩,
         ColorEntry.mk "3" ColorRole.primary "Primary" "#2563eb" ⟨217, 83, 53⟩] =
      (specContrastPairs
        [ColorEntry.mk "1" ColorRole.text "Text" "#111111" ⟨0, 0, 7⟩,
         ColorEntry.mk "2" ColorRole.background "Background" "#ffffff" ⟨0, 0, 100⟩,
         ColorEntry.mk "3" ColorRole.primary "Primary" "#2563eb" ⟨217, 83, 53⟩]).map
        (specContrastResult id) :=
  ⟨by decide,
   getContrastResults_spec id
     [ColorEntry.mk "1" ColorRole.text "Text" "#111111" ⟨0, 0, 7⟩,
      ColorEntry.mk "2" ColorRole.background "Background" "#ffffff" ⟨0, 0, 100⟩,
      ColorEntry.mk "3" ColorRole.primary "Primary" "#2563eb" ⟨217, 83, 53⟩]
     (by decide)⟩

/-- `filterMap` with an if-some-else-none body is filter-then-map. -/
theorem filterMap_if {α β : Type} (p : α → Prop) [DecidablePred p]
    (h : α → β) (l : List α) :
    l.filterMap (fun y => if p y then some (h y) else none) =
      (l.filter fun y => decide (p y)).map h := by
  induction l with
  | nil => rfl
  | cons x xs ih =>
    by_cases hx : p x
    · simp [List.filterMap_cons, List.filter_cons, hx, ih]
    · simp [List.filterMap_cons, List.filter_cons, hx, ih]

/-- Reading a list back by indices is the identity. -/
theorem map_getD_range {α : Type} (l : List α) (d : α) :
    (List.range l.length).map (fun j => l.getD j d) = l := by
  induction l with
  | nil => rfl
  | cons x xs ih =>
    rw [List.length_cons, List.range_succ_eq_map, List.map_cons, List.map_map]
    have h1 : ((fun j => (x :: xs).getD j d) ∘ Nat.succ) = fun j => xs.getD j d := by
      funext j
      simp [List.getD_cons_succ]
    rw [h1, ih]
    rfl

/-- Unfolding `indexPairs` at a successor: the pairs starting at index
0, then the shifted pairs of the tail. -/
theorem indexPairs_succ (n : ℕ) :
    indexPairs (n + 1) =
      ((List.range n).map fun j => ((0 : ℕ), j + 1)) ++
        (indexPairs n).map fun p => (p.1 + 1, p.2 + 1) := by
  unfold indexPairs
  rw [List.range_succ_eq_map, List.flatMap_cons]
  congr 1
  · rw [List.filter_cons]
    have h0 : (decide ((0:ℕ) < 0)) = false := rfl
    rw [h0]
    simp only [Bool.false_eq_true, if_false]
    rw [List.filter_map]
    have h1 : ((fun j => decide (0 < j)) ∘ Nat.succ) = fun _ => true := by
      funext j
      simp
    rw [h1, List.filter_true, List.map_map]
    rfl
  · rw [List.flatMap_map, List.map_flatMap]
    refine flatMap_congr ?_
    intro i _
    show ((0 :: (List.range n).map Nat.succ).filter
        (fun j => decide (Nat.succ i < j))).map (fun j => (Nat.succ i, j)) = _
    rw [List.filter_cons]
    have h0 : (decide (Nat.succ i < 0)) = false := by simp
    rw [h0]
    simp only [Bool.false_eq_true, if_false]
    rw [List.filter_map]
    have h1 : ((fun j => decide (Nat.succ i < j)) ∘ Nat.succ) =
        fun j => decide (i < j) := by
      funext j
      simp
    rw [h1, List.map_map, List.map_map]
    rfl

/-- The structural pair enumeration agrees with the index-based one. -/
theorem specAllPairs_indexPairs {α : Type} (l : List α) (d : α) :
    specAllPairs l =
      (indexPairs l.length).map fun p => (l.getD p.1 d, l.getD p.2 d) := by
  induction l with
  | nil => rfl
  | cons x xs ih =>
    rw [List.length_cons, indexPairs_succ, List.map_append, List.map_map,
      List.map_map]
    show (xs.map fun y => (x, y)) ++ specAllPairs xs = _
    refine congrArg₂ (· ++ ·) ?_ ?_
    · have h1 : ((fun p : ℕ × ℕ => ((x :: xs).getD p.1 d, (x :: xs).getD p.2 d)) ∘
          fun j => ((0:ℕ), j + 1)) = fun j => (x, xs.getD j d) := by
        funext j
        simp [List.getD_cons_succ, List.getD_cons_zero]
      rw [h1]
      calc (xs.map fun y => (x, y))
          = ((List.range xs.length).map fun j => xs.getD j d).map fun y => (x, y) := by
            rw [map_getD_range]
        _ = (List.range xs.length).map fun j => (x, xs.getD j d) := by
            rw [List.map_map]
            exact List.map_congr_left fun a _ => rfl
    · have h1 : ((fun p : ℕ × ℕ => ((x :: xs).getD p.1 d, (x :: xs).getD p.2 d)) ∘
          fun p : ℕ × ℕ => (p.1 + 1, p.2 + 1)) =
          fun p : ℕ × ℕ => (xs.getD p.1 d, xs.getD p.2 d) := by
        funext p
        simp [List.getD_cons_succ]
      rw [h1, ih]

/-- One pass of the inner loop of `analyzeColorPalette`: comparing a
fixed color against each later color is the filtered pair list. -/
theorem issuesLoop_head (pow24 powInv24 sqrtF : ℚ → ℚ)
    (visionType : VisionType) (threshold : ℚ) (c : NamedColor)
    (rest : List NamedColor) :
    rest.filterMap (fun c2 =>
      let sim1 := simulateColorBlindness pow24 powInv24 c.hex visionType
      let sim2 := simulateColorBlindness pow24 powInv24 c2.hex visionType
      let difference := colorDifference sqrtF sim1 sim2
      if difference < threshold then
        some ⟨⟨c.name, c.hex, sim1⟩, ⟨c2.name, c2.hex, sim2⟩, difference⟩
      else none) =
    ((rest.map fun y => (c, y)).filter
        (specPairBelow pow24 powInv24 sqrtF visionType threshold)).map
      (specIssue pow24 powInv24 sqrtF visionType) := by
  induction rest with
  | nil => rfl
  | cons x xs ih =>
    rw [List.filterMap_cons, List.map_cons, List.filter_cons]
    by_cases hx : colorDifference sqrtF
        (simulateColorBlindness pow24 powInv24 c.hex visionType)
        (simulateColorBlindness pow24 powInv24 x.hex visionType) < threshold
    · simp [specPairBelow, specIssue, hx, ih]
    · simp [specPairBelow, specIssue, hx, ih]

/-- The nested comparison loops produce exactly the filtered pairs. -/
theorem issuesLoop_eq (pow24 powInv24 sqrtF : ℚ → ℚ) (visionType : VisionType)
    (threshold : ℚ) (colors : List NamedColor) :
    issuesLoop pow24 powInv24 sqrtF visionType threshold colors =
      ((specAllPairs colors).filter
        (specPairBelow pow24 powInv24 sqrtF visionType threshold)).map
        (specIssue pow24 powInv24 sqrtF visionType) := by
  induction colors with
  | nil => rfl
  | cons c rest ih =>
    simp only [issuesLoop, specAllPairs]
    rw [List.filter_append, List.map_append, ih]
    congr 1
    exact issuesLoop_head pow24 powInv24 sqrtF visionType threshold c rest

/-- C9: `analyzeColorPalette` is accessible exactly when its issues
list is empty, and the issues are exactly the index pairs `i < j`
whose simulated colors differ by strictly less than the threshold, in
loop order. -/
theorem analyzeColorPalette_spec (pow24 powInv24 sqrtF : ℚ → ℚ)
    (colors : List NamedColor) (visionType : VisionType) (threshold : ℚ) :
    ((analyzeColorPalette pow24 powInv24 sqrtF colors visionType
        threshold).isAccessible = true ↔
      (analyzeColorPalette pow24 powInv24 sqrtF colors visionType
        threshold).issues = []) ∧
    (analyzeColorPalette pow24 powInv24 sqrtF colors visionType
        threshold).issues =
      (((indexPairs colors.length).map fun p =>
          (colors.getD p.1 ⟨"", ""⟩, colors.getD p.2 ⟨"", ""⟩)).filter
        (specPairBelow pow24 powInv24 sqrtF visionType threshold)).map
        (specIssue pow24 powInv24 sqrtF visionType) := by
  constructor
  · simp [analyzeColorPalette, List.length_eq_zero]
  · show issuesLoop pow24 powInv24 sqrtF visionType threshold colors = _
    rw [← specAllPairs_indexPairs colors ⟨"", ""⟩]
    exact issuesLoop_eq pow24 powInv24 sqrtF visionType threshold colors

/-- C10: the hex-consuming utilities are total with the documented
fallbacks: `hexToRgb` returns `[0,0,0]` on any string the regex
rejects, `hexToHsl` returns `{h:0, s:0, l:50}` when the chroma
conversion fails, `hslToHex` never reaches its `"#808080"` fallback
(its `try` branch is total on numbers), `calculateContrast` returns 1
when either color fails to parse, and for a valid 6-digit hex color
every parser succeeds, so the error branches are unreachable. -/
theorem hexUtils_total (pow24 : ℚ → ℚ) (s s2 : String) (h sat l : ℚ) :
    (hexToRgbAux s = none → hexToRgb s = ⟨0, 0, 0⟩) ∧
    (chromaParse s = none → hexToHsl s = ⟨0, 0, 50⟩) ∧
    (hslToHexAux h sat l).isSome = true ∧
    ((chromaParse s = none ∨ chromaParse s2 = none) →
      calculateContrast pow24 s s2 = 1) ∧
    (isValidHex s = true →
      (hexToRgbAux s).isSome = true ∧ (chromaParse s).isSome = true) := by
  refine ⟨?_, ?_, rfl, ?_, ?_⟩
  · intro hn
    simp [hexToRgb, hn]
  · intro hn
    simp [hexToHsl, hexToHslAux, hn]
  · intro hn
    rcases hn with hn | hn <;>
      · unfold calculateContrast
        rcases h1 : chromaParse s with _ | c1 <;>
          rcases h2 : chromaParse s2 with _ | c2 <;>
            simp_all
  · intro hv
    have hsome : (hexToRgbAux s).isSome = true := hv
    refine ⟨hsome, ?_⟩
    obtain ⟨c, hc⟩ := Option.isSome_iff_exists.mp hsome
    unfold hexToRgbAux at hc
    unfold chromaParse
    rcases hstrip : stripHash s.toList with _ | ⟨c1, rest⟩
    · rw [hstrip] at hc
      simp at hc
    · rw [hstrip] at hc
      rcases rest with _ | ⟨c2, rest2⟩
      · simp at hc
      · rcases rest2 with _ | ⟨c3, rest3⟩
        · simp at hc
        · rcases rest3 with _ | ⟨c4, rest4⟩
          · simp at hc
          · rcases rest4 with _ | ⟨c5, rest5⟩
            · simp at hc
            · rcases rest5 with _ | ⟨c6, rest6⟩
              · simp at hc
              · rcases rest6 with _ | ⟨c7, rest7⟩
                · by_cases hd : (isHexDigit c1 && isHexDigit c2 && isHexDigit c3 &&
                      isHexDigit c4 && isHexDigit c5 && isHexDigit c6) = true
                  · simp [hd]
                  · simp [hd] at hc
                · simp at hc

/-- Witness for C10 at concrete inputs. -/
theorem hexUtils_total_witness :
    (hexToRgbAux "oops" = none → hexToRgb "oops" = ⟨0, 0, 0⟩) ∧
    (chromaParse "oops" = none → hexToHsl "oops" = ⟨0, 0, 50⟩) ∧
    (hslToHexAux 217 83 53).isSome = true ∧
    ((chromaParse "oops" = none ∨ chromaParse "#336699" = none) →
      calculateContrast id "oops" "#336699" = 1) ∧
    (isValidHex "#336699" = true →
      (hexToRgbAux "#336699").isSome = true ∧
        (chromaParse "#336699").isSome = true) :=
  ⟨(hexUtils_total id "oops" "#336699" 217 83 53).1,
   (hexUtils_total id "oops" "#336699" 217 83 53).2.1,
   (hexUtils_total id "oops" "#336699" 217 83 53).2.2.1,
   (hexUtils_total id "oops" "#336699" 217 83 53).2.2.2.1,
   (hexUtils_total id "#336699" "#336699" 217 83 53).2.2.2.2⟩

theorem stringToRole_roleToString (r : ColorRole) :
    stringToRole (roleToString r) = some r := by
  cases r <;> rfl

theorem stringToHarmonyType_round (t : HarmonyType) :
    stringToHarmonyType (harmonyTypeToString t) = some t := by
  cases t <;> rfl

theorem jsonToHsl_round (x : Hsl) : jsonToHsl (hslToJson x) = some x := rfl

theorem jsonToColorEntry_round (c : ColorEntry) :
    jsonToColorEntry (colorEntryToJson c) = some c := by
  obtain ⟨id, role, name, hex, hsl⟩ := c
  cases role <;> rfl

theorem jsonToTypoStep_round (t : TypoStep) :
    jsonToTypoStep (typoStepToJson t) = some t := rfl

theorem mapM_typoSteps (l : List TypoStep) :
    optionMapList jsonToTypoStep (l.map typoStepToJson) = some l := by
  induction l with
  | nil => rfl
  | cons x xs ih =>
    rw [List.map_cons, optionMapList, jsonToTypoStep_round, ih]
    rfl

theorem mapM_colorEntries (l : List ColorEntry) :
    optionMapList jsonToColorEntry (l.map colorEntryToJson) = some l := by
  induction l with
  | nil => rfl
  | cons x xs ih =>
    rw [List.map_cons, optionMapList, jsonToColorEntry_round, ih]
    rfl

theorem jsonToTypography_round (t : TypographyScale) :
    jsonToTypography (typographyToJson t) = some t := by
  obtain ⟨bs, sr, hf, bf, steps⟩ := t
  simp [typographyToJson, jsonToTypography, jsonLookup, asObj, asNum, asStr,
    mapM_typoSteps]

theorem jsonToConfig_round (c : ColorHarmonyConfig) :
    jsonToConfig (configToJson c) = some c := by
  obtain ⟨t, bh, sat, sp⟩ := c
  cases t <;>
    simp [configToJson, jsonToConfig, jsonLookup, asObj, asNum, asStr,
      stringToHarmonyType, harmonyTypeToString, Int.floor_intCast]

theorem jsonToState_round (st : ShareableState) :
    jsonToState (stateToJson st) = some st := by
  obtain ⟨colors, typo, cfg, e1, e2⟩ := st
  simp [stateToJson, jsonToState, jsonLookup, asObj, asBool,
    mapM_colorEntries, jsonToTypography_round, jsonToConfig_round]

/-- C5: decoding an encoded shareable state returns the original
state, given that `JSON.parse` inverts `JSON.stringify` on this
serialization and LZ-string decompression inverts compression on this
string (library behaviour stated as hypotheses; the libraries are not
part of the repository).  The repository's own serialization shape and
the `decodeState` validation are proved to round-trip exactly. -/
theorem decodeState_encodeState (stringifyJ : Json → String)
    (compress : String → String) (parseJson : String → Option Json)
    (decompress : String → Option String) (st : ShareableState)
    (hdc : decompress (compress (stringifyJ (stateToJson st))) =
      some (stringifyJ (stateToJson st)))
    (hne : stringifyJ (stateToJson st) ≠ "")
    (hpj : parseJson (stringifyJ (stateToJson st)) = some (stateToJson st)) :
    decodeState parseJson decompress (encodeState stringifyJ compress st) =
      some st := by
  unfold decodeState encodeState
  rw [hdc]
  dsimp only
  rw [if_neg hne, hpj]
  dsimp only
  rw [jsonToState_round]

/-- Witness for C5 at a concrete state and trivial library
instantiations (`stringify` returning `"j"`, identity compression, a
parser returning the serialized state). -/
theorem decodeState_encodeState_witness :
    ((fun _ : Json => "j") (stateToJson sampleState) ≠ "") ∧
    decodeState (fun _ : String => some (stateToJson sampleState))
      (fun s : String => some s)
      (encodeState (fun _ : Json => "j") (fun s : String => s) sampleState) =
      some sampleState :=
  ⟨by decide,
   decodeState_encodeState (fun _ => "j") (fun s => s)
     (fun _ => some (stateToJson sampleState)) (fun s => some s)
     sampleState rfl (by decide) rfl⟩

/-- Both interpolation endpoints equal: every branch returns the same
value. -/
theorem hue2rgb_const (t x : ℚ) : hue2rgbChannel t t x = t := by
  unfold hue2rgbChannel
  simp

/-- A byte cast to `ℚ` survives chroma's round-and-clip printing. -/
theorem roundClampByte_cast (n : ℕ) (h : n ≤ 255) :
    roundClampByte (n : ℚ) = n := by
  unfold roundClampByte
  have h1 : jsRound (n : ℚ) = (n : ℤ) := by
    have := jsRound_intCast (n : ℤ)
    simpa using this
  rw [h1]
  have h2 : min 255 (n : ℤ) = (n : ℤ) := min_eq_right (by exact_mod_cast h)
  rw [h2, max_eq_right (by positivity)]
  simp

/-- Evaluation: `hexToHsl "#000001"` rounds the lightness to 0. -/
theorem hexToHsl_000001 : hexToHsl "#000001" = ⟨240, 100, 0⟩ := by
  have hp : chromaParse "#000001" = some ⟨0, 0, 1⟩ := by decide
  have h2 : rgb2hsl ⟨0, 0, 1⟩ = (some 240, 1, 1/510) := by
    unfold rgb2hsl rgb2hslQ
    norm_num [min_def, max_def]
  unfold hexToHsl hexToHslAux
  rw [hp]
  dsimp only
  rw [h2]
  show Hsl.mk ((jsRound 240 : ℤ) : ℚ) ((jsRound (1 * 100) : ℤ) : ℚ)
      ((jsRound (1/510 * 100) : ℤ) : ℚ) = ⟨240, 100, 0⟩
  norm_num [jsRound, Int.floor_eq_iff]

/-- Evaluation: converting HSL `(240, 100, 0)` back gives black. -/
theorem hslToHex_240_100_0 : hslToHex 240 100 0 = "#000000" := by
  unfold hslToHex hslToHexAux
  have h1 : hsl2rgb 240 (100/100) (0/100) = (0, 0, 0) := by
    norm_num [hsl2rgb, hue2rgb_const]
  rw [h1]
  show chromaRgbToHex 0 0 0 = "#000000"
  rw [show (0:ℚ) = ((0:ℕ) : ℚ) by norm_num]
  unfold chromaRgbToHex
  rw [roundClampByte_cast 0 (by norm_num)]
  rfl

/-- On the saturation/lightness pair produced by `rgb2hslQ` from a
non-achromatic color, the `t2`/`t1` interpolation endpoints of
`hsl2rgb` are exactly the maximal and minimal channel. -/
theorem hsl2rgb_MS (m M H : ℚ) (hm0 : 0 ≤ m) (hmM : m < M) (hM1 : M ≤ 1) :
    hsl2rgb H (if (M + m)/2 < 1/2 then (M - m)/(M + m) else (M - m)/(2 - M - m))
      ((M + m)/2) =
    (hue2rgbChannel m M (H/360 + 1/3) * 255, hue2rgbChannel m M (H/360) * 255,
     hue2rgbChannel m M (H/360 - 1/3) * 255) := by
  have hMpos : 0 < M := lt_of_le_of_lt hm0 hmM
  have hsum : 0 < M + m := by linarith
  have h2mm : 0 < 2 - M - m := by linarith
  unfold hsl2rgb
  by_cases hl : (M + m)/2 < 1/2
  · rw [if_pos hl]
    have hs : (M - m)/(M + m) ≠ 0 := ne_of_gt (div_pos (by linarith) hsum)
    rw [if_neg hs]
    dsimp only
    rw [if_pos hl]
    have ht2 : (M + m)/2 * (1 + (M - m)/(M + m)) = M := by
      field_simp
      ring
    rw [ht2]
    have ht1 : 2 * ((M + m)/2) - M = m := by ring
    rw [ht1]
  · rw [if_neg hl]
    have hs : (M - m)/(2 - M - m) ≠ 0 := ne_of_gt (div_pos (by linarith) h2mm)
    rw [if_neg hs]
    dsimp only
    rw [if_neg hl]
    have ht2 : (M + m)/2 + (M - m)/(2 - M - m) -
        (M + m)/2 * ((M - m)/(2 - M - m)) = M := by
      field_simp
      ring
    rw [ht2]
    have ht1 : 2 * ((M + m)/2) - M = m := by ring
    rw [ht1]

/-- C6 counterexample: the hex⇄HSL round trip is not the identity —
`#000001` has HSL lightness ≈ 0.196%, which `hexToHsl` rounds to 0, so
converting back yields `#000000`. -/
theorem hexHsl_roundtrip_counterexample :
    hslToHex (hexToHsl "#000001").h (hexToHsl "#000001").s
      (hexToHsl "#000001").l ≠ "#000001" := by
  rw [hexToHsl_000001]
  show hslToHex 240 100 0 ≠ "#000001"
  rw [hslToHex_240_100_0]
  decide

/-- In range, no wrapping happens to the interpolation argument. -/
theorem hue2rgb_nowrap (t3w : ℚ) (h0 : 0 ≤ t3w) (h1 : t3w ≤ 1) :
    (if t3w < 0 then t3w + 1 else if 1 < t3w then t3w - 1 else t3w) = t3w := by
  rw [if_neg (by linarith), if_neg (by linarith)]

/-- First branch of the hue interpolation (`6 t < 1`). -/
theorem hue2rgb_seg1 (t1 t2 t3w : ℚ) (h0 : 0 ≤ t3w) (h1 : 6 * t3w < 1) :
    hue2rgbChannel t1 t2 t3w = t1 + (t2 - t1) * 6 * t3w := by
  unfold hue2rgbChannel
  rw [hue2rgb_nowrap t3w h0 (by linarith), if_pos (by linarith)]

/-- Second branch of the hue interpolation (`1 ≤ 6 t`, `2 t < 1`). -/
theorem hue2rgb_seg2 (t1 t2 t3w : ℚ) (h0 : 1 ≤ 6 * t3w) (h1 : 2 * t3w < 1) :
    hue2rgbChannel t1 t2 t3w = t2 := by
  unfold hue2rgbChannel
  rw [hue2rgb_nowrap t3w (by linarith) (by linarith), if_neg (by linarith),
    if_pos (by linarith)]

/-- Third branch of the hue interpolation (`1 ≤ 2 t`, `3 t < 2`). -/
theorem hue2rgb_seg3 (t1 t2 t3w : ℚ) (h0 : 1 ≤ 2 * t3w) (h1 : 3 * t3w < 2) :
    hue2rgbChannel t1 t2 t3w = t1 + (t2 - t1) * (2 / 3 - t3w) * 6 := by
  unfold hue2rgbChannel
  rw [hue2rgb_nowrap t3w (by linarith) (by linarith), if_neg (by linarith),
    if_neg (by linarith), if_pos (by linarith)]

/-- Fourth branch of the hue interpolation (`2 ≤ 3 t ≤ 3`). -/
theorem hue2rgb_seg4 (t1 t2 t3w : ℚ) (h0 : 2 ≤ 3 * t3w) (h1 : t3w ≤ 1) :
    hue2rgbChannel t1 t2 t3w = t1 := by
  unfold hue2rgbChannel
  rw [hue2rgb_nowrap t3w (by linarith) h1, if_neg (by linarith),
    if_neg (by linarith), if_neg (by linarith)]

/-- Negative wrap of the hue interpolation argument. -/
theorem hue2rgb_wrap_neg (t1 t2 t3w : ℚ) (h0 : t3w < 0) (h1 : -1 ≤ t3w) :
    hue2rgbChannel t1 t2 t3w = hue2rgbChannel t1 t2 (t3w + 1) := by
  unfold hue2rgbChannel
  rw [if_pos h0, hue2rgb_nowrap (t3w + 1) (by linarith) (by linarith)]

/-- Positive wrap of the hue interpolation argument. -/
theorem hue2rgb_wrap_pos (t1 t2 t3w : ℚ) (h0 : 1 < t3w) (h1 : t3w ≤ 2) :
    hue2rgbChannel t1 t2 t3w = hue2rgbChannel t1 t2 (t3w - 1) := by
  unfold hue2rgbChannel
  have hw : (if t3w < 0 then t3w + 1 else if 1 < t3w then t3w - 1 else t3w) =
      t3w - 1 := by
    rw [if_neg (by linarith), if_pos h0]
  rw [hw, hue2rgb_nowrap (t3w - 1) (by linarith) (by linarith)]

/-- Exact inversion: with no rounding, chroma's `hsl2rgb` applied to
the exact `rgb2hslQ` output returns the original channels.  The proof
walks the six hue sectors (which channel attains the max, sign of the
hue numerator) and their boundary cases. -/

theorem hsl2rgb_rgb2hslQ (r g b : ℚ)
    (hr0 : 0 ≤ r) (hr1 : r ≤ 1) (hg0 : 0 ≤ g) (hg1 : g ≤ 1)
    (hb0 : 0 ≤ b) (hb1 : b ≤ 1) :
    hsl2rgb ((rgb2hslQ r g b).1.getD 0) (rgb2hslQ r g b).2.1
      (rgb2hslQ r g b).2.2 = (r * 255, g * 255, b * 255) := by
  have hmr : min r (min g b) ≤ r := min_le_left _ _
  have hmg : min r (min g b) ≤ g := le_trans (min_le_right _ _) (min_le_left _ _)
  have hmb : min r (min g b) ≤ b := le_trans (min_le_right _ _) (min_le_right _ _)
  have hrM : r ≤ max r (max g b) := le_max_left _ _
  have hgM : g ≤ max r (max g b) := le_trans (le_max_left _ _) (le_max_right _ _)
  have hbM : b ≤ max r (max g b) := le_trans (le_max_right _ _) (le_max_right _ _)
  have hm0 : 0 ≤ min r (min g b) := le_min hr0 (le_min hg0 hb0)
  have hM1 : max r (max g b) ≤ 1 := max_le hr1 (max_le hg1 hb1)
  unfold rgb2hslQ
  dsimp only
  set m := min r (min g b) with hm_def
  set M := max r (max g b) with hM_def
  by_cases hMm : M = m
  · rw [if_pos hMm]
    dsimp only
    have hMr : M ≤ r := by rw [hMm]; exact hmr
    have hMg : M ≤ g := by rw [hMm]; exact hmg
    have hMb : M ≤ b := by rw [hMm]; exact hmb
    unfold hsl2rgb
    rw [if_pos rfl]
    have h1 : r = M := le_antisymm hrM hMr
    have h2 : g = M := le_antisymm hgM hMg
    have h3 : b = M := le_antisymm hbM hMb
    simp only [Prod.mk.injEq]
    refine ⟨by nlinarith, by nlinarith, by nlinarith⟩
  · rw [if_neg hMm]
    dsimp only
    have hmM : m < M := lt_of_le_of_ne (le_trans hmr hrM) (fun h => hMm h.symm)
    have hd0 : (0:ℚ) < M - m := by linarith
    have hdne : M - m ≠ 0 := ne_of_gt hd0
    rw [hsl2rgb_MS m M _ hm0 hmM hM1]
    simp only [Option.getD_some]
    by_cases hrM2 : r = M
    · rw [if_pos hrM2]
      by_cases hgb : b ≤ g
      · -- red sector, nonnegative hue
        have hqnn : 0 ≤ (g - b) / (M - m) := div_nonneg (by linarith) (le_of_lt hd0)
        rw [if_neg (by linarith : ¬((g - b) / (M - m) * 60 < 0))]
        have hmb2 : m = b :=
          le_antisymm hmb (le_min (by linarith [hbM, hrM2]) (le_min hgb le_rfl))
        set q := (g - b) / (M - m) with hq_def
        have hq1 : q ≤ 1 := by
          rw [hq_def, div_le_one hd0]
          linarith [hgM, hmb2]
        have hdq : (M - m) * q = g - b := by
          rw [hq_def]
          field_simp
        simp only [Prod.mk.injEq]
        refine ⟨?_, ?_, ?_⟩
        · by_cases hedge : q < 1
          · rw [hue2rgb_seg2 m M (q * 60 / 360 + 1/3) (by linarith) (by linarith)]
            rw [hrM2]
          · have hq_eq : q = 1 := le_antisymm hq1 (not_lt.mp hedge)
            rw [hue2rgb_seg3 m M (q * 60 / 360 + 1/3) (by rw [hq_eq]; norm_num)
              (by rw [hq_eq]; norm_num)]
            rw [hq_eq]
            have : m + (M - m) * (2 / 3 - (1 * 60 / 360 + 1 / 3)) * 6 = M := by ring
            rw [this, hrM2]
        · by_cases hedge : q < 1
          · rw [hue2rgb_seg1 m M (q * 60 / 360) (by linarith) (by linarith)]
            have : m + (M - m) * 6 * (q * 60 / 360) = m + (M - m) * q := by ring
            rw [this]
            have : m + (M - m) * q = g := by linarith [hdq, hmb2]
            rw [this]
          · have hq_eq : q = 1 := le_antisymm hq1 (not_lt.mp hedge)
            rw [hue2rgb_seg2 m M (q * 60 / 360) (by rw [hq_eq]; norm_num)
              (by rw [hq_eq]; norm_num)]
            rw [hq_eq] at hdq
            have : g = M := by linarith [hdq, hmb2]
            rw [this]
        · rw [hue2rgb_wrap_neg m M (q * 60 / 360 - 1/3) (by linarith) (by linarith)]
          rw [hue2rgb_seg4 m M (q * 60 / 360 - 1/3 + 1) (by linarith) (by linarith)]
          rw [hmb2]
      · -- red sector, negative hue: g < b, wraps through +360
        push_neg at hgb
        have hqneg : (g - b) / (M - m) < 0 :=
          div_neg_of_neg_of_pos (by linarith) hd0
        rw [if_pos (by linarith : (g - b) / (M - m) * 60 < 0)]
        have hmg2 : m = g :=
          le_antisymm hmg (le_min (by linarith [hgM, hrM2]) (le_min le_rfl (by linarith)))
        set q := (g - b) / (M - m) with hq_def
        have hqm1 : -1 ≤ q := by
          rw [hq_def, le_div_iff₀ hd0]
          linarith [hbM, hmg2]
        have hdq : (M - m) * q = g - b := by
          rw [hq_def]
          field_simp
        simp only [Prod.mk.injEq]
        refine ⟨?_, ?_, ?_⟩
        · rw [hue2rgb_wrap_pos m M ((q * 60 + 360) / 360 + 1/3) (by linarith)
            (by linarith)]
          rw [hue2rgb_seg2 m M ((q * 60 + 360) / 360 + 1/3 - 1) (by linarith)
            (by linarith)]
          rw [hrM2]
        · rw [hue2rgb_seg4 m M ((q * 60 + 360) / 360) (by linarith) (by linarith)]
          rw [hmg2]
        · rw [hue2rgb_seg3 m M ((q * 60 + 360) / 360 - 1/3) (by linarith)
            (by linarith)]
          have : m + (M - m) * (2 / 3 - ((q * 60 + 360) / 360 - 1 / 3)) * 6 =
              m - (M - m) * q := by ring
          rw [this]
          have : m - (M - m) * q = b := by linarith [hdq, hmg2]
          rw [this]
    · rw [if_neg hrM2]
      have hrltM : r < M := lt_of_le_of_ne hrM hrM2
      by_cases hgM2 : g = M
      · -- green sector
        rw [if_pos hgM2]
        have hq1 : (b - r) / (M - m) ≤ 1 := by
          rw [div_le_one hd0]
          linarith [hbM, hmr]
        have hqm1 : -1 ≤ (b - r) / (M - m) := by
          rw [le_div_iff₀ hd0]
          linarith [hmb, hrM]
        have hsign : (0:ℚ) ≤ (2 + (b - r) / (M - m)) * 60 := by linarith
        rw [if_neg (not_lt.mpr hsign)]
        set q := (b - r) / (M - m) with hq_def
        have hdq : (M - m) * q = b - r := by
          rw [hq_def]
          field_simp
        simp only [Prod.mk.injEq]
        by_cases hbr : r ≤ b
        · -- min is r
          have hqnn : 0 ≤ q := by
            rw [hq_def]
            exact div_nonneg (by linarith) (le_of_lt hd0)
          have hmr2 : m = r := le_antisymm hmr
            (le_min le_rfl (le_min (by linarith [hgM2]) hbr))
          refine ⟨?_, ?_, ?_⟩
          · rw [hue2rgb_seg4 m M ((2 + q) * 60 / 360 + 1/3) (by linarith)
              (by linarith)]
            rw [hmr2]
          · by_cases hedge : q < 1
            · rw [hue2rgb_seg2 m M ((2 + q) * 60 / 360) (by linarith) (by linarith)]
              rw [hgM2]
            · have hq_eq : q = 1 := le_antisymm hq1 (not_lt.mp hedge)
              rw [hue2rgb_seg3 m M ((2 + q) * 60 / 360) (by rw [hq_eq]; norm_num)
                (by rw [hq_eq]; norm_num)]
              rw [hq_eq]
              have : m + (M - m) * (2 / 3 - (2 + 1) * 60 / 360) * 6 = M := by ring
              rw [this, hgM2]
          · by_cases hedge : q < 1
            · rw [hue2rgb_seg1 m M ((2 + q) * 60 / 360 - 1/3) (by linarith)
                (by linarith)]
              have : m + (M - m) * 6 * ((2 + q) * 60 / 360 - 1 / 3) =
                  m + (M - m) * q := by ring
              rw [this]
              have : m + (M - m) * q = b := by linarith [hdq, hmr2]
              rw [this]
            · have hq_eq : q = 1 := le_antisymm hq1 (not_lt.mp hedge)
              rw [hue2rgb_seg2 m M ((2 + q) * 60 / 360 - 1/3)
                (by rw [hq_eq]; norm_num) (by rw [hq_eq]; norm_num)]
              rw [hq_eq] at hdq
              have : b = M := by linarith [hdq, hmr2]
              rw [this]
        · -- min is b
          push_neg at hbr
          have hqneg : q < 0 := by
            rw [hq_def]
            exact div_neg_of_neg_of_pos (by linarith) hd0
          have hmb2 : m = b := le_antisymm hmb
            (le_min (by linarith) (le_min (by linarith [hgM2]) le_rfl))
          have hqm1s : -1 < q := by
            rw [hq_def, lt_div_iff₀ hd0]
            linarith [hrltM, hmb2]
          refine ⟨?_, ?_, ?_⟩
          · rw [hue2rgb_seg3 m M ((2 + q) * 60 / 360 + 1/3) (by linarith)
              (by linarith)]
            have : m + (M - m) * (2 / 3 - ((2 + q) * 60 / 360 + 1 / 3)) * 6 =
                m - (M - m) * q := by ring
            rw [this]
            have : m - (M - m) * q = r := by linarith [hdq, hmb2]
            rw [this]
          · rw [hue2rgb_seg2 m M ((2 + q) * 60 / 360) (by linarith) (by linarith)]
            rw [hgM2]
          · rw [hue2rgb_wrap_neg m M ((2 + q) * 60 / 360 - 1/3) (by linarith)
              (by linarith)]
            rw [hue2rgb_seg4 m M ((2 + q) * 60 / 360 - 1/3 + 1) (by linarith)
              (by linarith)]
            rw [hmb2]
      · -- blue sector
        rw [if_neg hgM2]
        have hgltM : g < M := lt_of_le_of_ne hgM hgM2
        have hbM2 : b = M := by
          by_contra hne
          have hblt : b < M := lt_of_le_of_ne hbM hne
          have hcon : M < M := by
            calc M = r ⊔ (g ⊔ b) := hM_def
            _ < M := max_lt hrltM (max_lt hgltM hblt)
          exact absurd hcon (lt_irrefl M)
        have hq1 : (r - g) / (M - m) ≤ 1 := by
          rw [div_le_one hd0]
          linarith [hrM, hmg]
        have hqm1 : -1 ≤ (r - g) / (M - m) := by
          rw [le_div_iff₀ hd0]
          linarith [hmr, hgM]
        have hsign : (0:ℚ) ≤ (4 + (r - g) / (M - m)) * 60 := by linarith
        rw [if_neg (not_lt.mpr hsign)]
        set q := (r - g) / (M - m) with hq_def
        have hdq : (M - m) * q = r - g := by
          rw [hq_def]
          field_simp
        simp only [Prod.mk.injEq]
        by_cases hgr : g ≤ r
        · -- min is g
          have hqnn : 0 ≤ q := by
            rw [hq_def]
            exact div_nonneg (by linarith) (le_of_lt hd0)
          have hmg2 : m = g :=
            le_antisymm hmg (le_min hgr (le_min le_rfl (by linarith [hbM2])))
          have hqlt1 : q < 1 := by
            rw [hq_def, div_lt_one hd0]
            linarith [hrltM, hmg2]
          refine ⟨?_, ?_, ?_⟩
          · by_cases hq0 : q = 0
            · rw [hq0]
              rw [hue2rgb_seg4 m M ((4 + 0) * 60 / 360 + 1/3) (by norm_num)
                (by norm_num)]
              have : r = m := by
                rw [hq0] at hdq
                linarith [hdq, hmg2]
              rw [this]
            · have hqpos : 0 < q := lt_of_le_of_ne hqnn (Ne.symm hq0)
              rw [hue2rgb_wrap_pos m M ((4 + q) * 60 / 360 + 1/3) (by linarith)
                (by linarith)]
              rw [hue2rgb_seg1 m M ((4 + q) * 60 / 360 + 1/3 - 1) (by linarith)
                (by linarith)]
              have he1 : m + (M - m) * 6 * ((4 + q) * 60 / 360 + 1 / 3 - 1) =
                  m + (M - m) * q := by ring
              rw [he1]
              have he2 : m + (M - m) * q = r := by linarith [hdq, hmg2]
              rw [he2]
          · rw [hue2rgb_seg4 m M ((4 + q) * 60 / 360) (by linarith) (by linarith)]
            rw [hmg2]
          · rw [hue2rgb_seg2 m M ((4 + q) * 60 / 360 - 1/3) (by linarith)
              (by linarith)]
            rw [hbM2]
        · -- min is r
          push_neg at hgr
          have hqneg : q < 0 := by
            rw [hq_def]
            exact div_neg_of_neg_of_pos (by linarith) hd0
          have hmr2 : m = r :=
            le_antisymm hmr (le_min le_rfl (le_min (by linarith) (by linarith [hbM2])))
          have hqm1s : -1 < q := by
            rw [hq_def, lt_div_iff₀ hd0]
            linarith [hgltM, hmr2]
          refine ⟨?_, ?_, ?_⟩
          · rw [hue2rgb_seg4 m M ((4 + q) * 60 / 360 + 1/3) (by linarith)
              (by linarith)]
            rw [hmr2]
          · rw [hue2rgb_seg3 m M ((4 + q) * 60 / 360) (by linarith) (by linarith)]
            have he1 : m + (M - m) * (2 / 3 - (4 + q) * 60 / 360) * 6 =
                m - (M - m) * q := by ring
            rw [he1]
            have he2 : m - (M - m) * q = g := by linarith [hdq, hmr2]
            rw [he2]
          · rw [hue2rgb_seg2 m M ((4 + q) * 60 / 360 - 1/3) (by linarith)
              (by linarith)]
            rw [hbM2]


/-- C6 (amended): the two conversion directions are mutually inverse
up to `hexToHsl`'s integer rounding of h, s and l — for every color
whose rounded HSL coincides with its exact HSL, converting the
canonical hex to HSL and back returns the original hex; the exact
round trip fails in general (see the counterexample at `#000001`). -/
theorem hexToHsl_hslToHex_amended (c : Rgb) (hr : c.r ≤ 255)
    (hg : c.g ≤ 255) (hb : c.b ≤ 255)
    (hexact : hexToHsl (canonicalHex c) = exactHsl c) :
    hslToHex (hexToHsl (canonicalHex c)).h (hexToHsl (canonicalHex c)).s
      (hexToHsl (canonicalHex c)).l = canonicalHex c := by
  rw [hexact]
  unfold exactHsl hslToHex hslToHexAux
  dsimp only
  rw [show ((rgb2hsl c).2.1 * 100 / 100) = (rgb2hsl c).2.1 from by ring]
  rw [show ((rgb2hsl c).2.2 * 100 / 100) = (rgb2hsl c).2.2 from by ring]
  unfold rgb2hsl
  rw [hsl2rgb_rgb2hslQ ((c.r : ℚ)/255) ((c.g : ℚ)/255) ((c.b : ℚ)/255)
    (by positivity) (by rw [div_le_one (by norm_num)]; exact_mod_cast hr)
    (by positivity) (by rw [div_le_one (by norm_num)]; exact_mod_cast hg)
    (by positivity) (by rw [div_le_one (by norm_num)]; exact_mod_cast hb)]
  dsimp only
  rw [show ((c.r : ℚ)/255 * 255) = (c.r : ℚ) from by field_simp]
  rw [show ((c.g : ℚ)/255 * 255) = (c.g : ℚ) from by field_simp]
  rw [show ((c.b : ℚ)/255 * 255) = (c.b : ℚ) from by field_simp]
  rfl

/-- Evaluation: the exact HSL of pure red. -/
theorem rgb2hsl_ff0000 : rgb2hsl ⟨255, 0, 0⟩ = (some 0, 1, 1/2) := by
  unfold rgb2hsl rgb2hslQ
  norm_num [min_def, max_def]

/-- Evaluation: pure red's rounded HSL equals its exact HSL, so it is
in the lossless domain of the amended C6. -/
theorem hexact_ff0000 :
    hexToHsl (canonicalHex ⟨255, 0, 0⟩) = exactHsl ⟨255, 0, 0⟩ := by
  have hc : canonicalHex ⟨255, 0, 0⟩ = "#ff0000" := by
    unfold canonicalHex chromaRgbToHex
    dsimp only
    rw [roundClampByte_cast 255 (by norm_num), roundClampByte_cast 0 (by norm_num)]
    rfl
  rw [hc]
  have hp : chromaParse "#ff0000" = some ⟨255, 0, 0⟩ := by decide
  unfold hexToHsl hexToHslAux exactHsl
  rw [hp]
  dsimp only
  rw [rgb2hsl_ff0000]
  show Hsl.mk ((jsRound 0 : ℤ) : ℚ) ((jsRound (1 * 100) : ℤ) : ℚ)
      ((jsRound (1/2 * 100) : ℤ) : ℚ) = ⟨0, 1 * 100, 1/2 * 100⟩
  norm_num [jsRound, Int.floor_eq_iff]

/-- Witness for the amended C6 at pure red. -/
theorem hexToHsl_hslToHex_amended_witness :
    ((⟨255, 0, 0⟩ : Rgb).r ≤ 255 ∧ (⟨255, 0, 0⟩ : Rgb).g ≤ 255 ∧
      (⟨255, 0, 0⟩ : Rgb).b ≤ 255 ∧
      hexToHsl (canonicalHex ⟨255, 0, 0⟩) = exactHsl ⟨255, 0, 0⟩) ∧
    hslToHex (hexToHsl (canonicalHex ⟨255, 0, 0⟩)).h
      (hexToHsl (canonicalHex ⟨255, 0, 0⟩)).s
      (hexToHsl (canonicalHex ⟨255, 0, 0⟩)).l = canonicalHex ⟨255, 0, 0⟩ :=
  ⟨⟨by decide, by decide, by decide, hexact_ff0000⟩,
   hexToHsl_hslToHex_amended ⟨255, 0, 0⟩ (by decide) (by decide) (by decide)
     hexact_ff0000⟩

end ChromaStudio
